import Mathlib

/-!
# starlinkctl: a shallow embedding of `cmd/starlinkctl/main.go`

The program parses three command-line flags, opens one connection through an
injected factory, issues one `get_status` call, and prints selected fields of
the reply, one `fmt.Fprintf` per line.

The embedding keeps the shape of the source:

* `parseArgs` is the source function; the standard library pieces it calls
  (`flag.FlagSet.Parse`, `strconv.ParseBool`, `time.ParseDuration`) are
  embedded next to it, since their behaviour decides what `parseArgs` returns.
* `run` is the source function with its effects made explicit: every call
  that leaves the function (the factory, `Handle`, each write on `out`,
  `Close`, the diagnostic on standard error) appends an `Event` to a trace,
  and the collaborators (factory, connection, sink) are deterministic
  functions that say what each call returns.

Go strings are modelled by `String`; the parsers inspect them character by
character, and every character they compare against is ASCII.  What the
`flag` package prints on standard error when a parse fails is not part of the
model: only the error it returns is.
-/

namespace Starlinkctl

/-! ## Data model -/

/-- Go `time.Duration`: a signed number of nanoseconds. -/
abbrev Duration := Int

/-- One second, in nanoseconds (`time.Second`). -/
def Second : Duration := 1000000000

/-- The `config` struct of the source. -/
structure config where
  addr : String
  timeout : Duration
  waitReady : Bool
deriving DecidableEq, Repr

/-- The zero value `config{}`. -/
def config.zero : config := { addr := "", timeout := 0, waitReady := false }

/-- Go `error` values that can reach `run`.  The errors made by the `flag`
package keep the data of their message instead of the formatted text. -/
inductive Error where
  /-- The sentinel `flag.ErrHelp`. -/
  | errHelp
  /-- The error `bad flag syntax: <arg>`. -/
  | badFlagSyntax (arg : String)
  /-- The error `flag provided but not defined: -<name>`. -/
  | notDefined (name : String)
  /-- The error `flag needs an argument: -<name>`. -/
  | needsArgument (name : String)
  /-- The error `invalid value <value> for flag -<name>: parse error`. -/
  | invalidValue (value name : String)
  /-- The error `invalid boolean value <value> for -<name>: parse error`. -/
  | invalidBoolValue (value name : String)
  /-- An error value handed to `run` by a collaborator: the connection
  factory, the RPC, the output sink or `Close`. -/
  | collaborator (msg : String)
  /-- The result of `fmt.Errorf(msg)` with no wrapped operand. -/
  | errorf (msg : String)
  /-- The result of `fmt.Errorf(pfx + "%w", cause)`. -/
  | wrap (pfx : String) (cause : Error)
deriving DecidableEq, Repr

/-- Go `errors.Unwrap`. -/
def Error.unwrap : Error → Option Error
  | .wrap _ cause => some cause
  | _ => none

/-! ## `time.ParseDuration` -/

/-- The test `c < '0' || c > '9'` negated. -/
def isDigit (c : Char) : Bool := decide ('0' ≤ c) && decide (c ≤ '9')

/-- The value `c - '0'` of a digit. -/
def digitVal (c : Char) : Nat := c.toNat - 48

/-- Go `leadingInt`: consumes `[0-9]*`; `none` is `errLeadingInt` (overflow).
The first argument is the accumulator `x` of the loop. -/
def leadingInt (x : Nat) : List Char → Option (Nat × List Char)
  | [] => some (x, [])
  | c :: cs =>
    if !isDigit c then some (x, c :: cs)
    else if x > 2 ^ 63 / 10 then none
    else
      let x1 := x * 10 + digitVal c
      if x1 > 2 ^ 63 then none else leadingInt x1 cs

/-- Go `leadingFraction`: consumes `[0-9]*` after the period and returns the
digits read as an integer `x` together with `scale`, the power of ten such
that the fraction is `x / scale`; digits past the overflow point are
dropped. -/
def leadingFraction (x scale : Nat) (overflow : Bool) :
    List Char → Nat × Nat × List Char
  | [] => (x, scale, [])
  | c :: cs =>
    if !isDigit c then (x, scale, c :: cs)
    else if overflow then leadingFraction x scale true cs
    else if x > (2 ^ 63 - 1) / 10 then leadingFraction x scale true cs
    else
      let y := x * 10 + digitVal c
      if y > 2 ^ 63 then leadingFraction x scale true cs
      else leadingFraction y (scale * 10) false cs

/-- The unit loop of `ParseDuration`: the longest prefix with no period and
no digit, and what follows it. -/
def spanUnit : List Char → List Char × List Char
  | [] => ([], [])
  | c :: cs =>
    if c = '.' || isDigit c then ([], c :: cs)
    else ((spanUnit cs).1.cons c, (spanUnit cs).2)

/-- Go `unitMap`. -/
def unitMap (u : String) : Option Nat :=
  if u = "ns" then some 1
  else if u = "us" then some 1000
  else if u = "µs" then some 1000
  else if u = "μs" then some 1000
  else if u = "ms" then some 1000000
  else if u = "s" then some 1000000000
  else if u = "m" then some 60000000000
  else if u = "h" then some 3600000000000
  else none

/-! ### The binary64 arithmetic of the fraction term

`ParseDuration` adds `uint64(float64(f) * (float64(unit) / scale))` for a
fractional part.  All operands are positive and far from the subnormal and
overflow ranges, so each operation is the exact result rounded to a 53-bit
significand, ties to even.  A positive binary64 value is kept as a pair
`(m, e)` standing for `m * 2 ^ e`. -/

/-- Number of binary digits of `n`, by repeated halving with fuel. -/
def bitLenFuel : Nat → Nat → Nat
  | 0, _ => 0
  | fuel + 1, n => if n = 0 then 0 else bitLenFuel fuel (n / 2) + 1

/-- Number of binary digits of `n` (`0` for `0`). -/
def bitLen (n : Nat) : Nat := bitLenFuel (n + 1) n

/-- Quotient `num / den` rounded to the nearest integer, ties to even. -/
def divRoundHalfEven (num den : Nat) : Nat :=
  let q := num / den
  let r := num % den
  if 2 * r < den then q
  else if 2 * r > den then q + 1
  else if q % 2 = 0 then q else q + 1

/-- The positive rational `num / den * 2 ^ e` as the pair numerator,
denominator. -/
def scalePow2 (num den : Nat) (e : Int) : Nat × Nat :=
  if 0 ≤ e then (num * 2 ^ e.toNat, den) else (num, den * 2 ^ (-e).toNat)

/-- The rational `num / den` (`den > 0`) rounded to binary64, as `(m, e)` with
value `m * 2 ^ e`.  The exponent is chosen so that the quotient has 53
binary digits before rounding. -/
def roundBinary64 (num den : Nat) : Nat × Int :=
  if num = 0 then (0, 0)
  else
    let e0 : Int := (bitLen num : Int) - (bitLen den : Int) - 53
    let s0 := scalePow2 num den (-e0)
    -- `s0.1 / s0.2` lies in `[2^52, 2^54)`; pick the exponent that puts it in `[2^52, 2^53)`
    let e : Int := if s0.1 / s0.2 < 2 ^ 53 then e0 else e0 + 1
    let s := scalePow2 num den (-e)
    (divRoundHalfEven s.1 s.2, e)

/-- The fraction term `uint64(float64(f) * (float64(unit) / scale))`. -/
def fractionTerm (f unit scale : Nat) : Nat :=
  let ff := roundBinary64 f 1
  let us := roundBinary64 unit scale
  let p0 := scalePow2 (ff.1 * us.1) 1 (ff.2 + us.2)
  let p := roundBinary64 p0.1 p0.2
  let t := scalePow2 p.1 1 p.2
  t.1 / t.2

/-- The block `Consume (\.[0-9]*)?` of `ParseDuration`: the fraction digits
`f`, their `scale`, the rest of the input, and `post`, whether a digit was
read after the period. -/
def fractionPart (s : List Char) : Nat × Nat × List Char × Bool :=
  match s with
  | '.' :: s2 =>
    let r := leadingFraction 0 1 false s2
    (r.1, r.2.1, r.2.2, decide (s2.length ≠ r.2.2.length))
  | _ => (0, 1, s, false)

/-- One turn of the `for s != ""` loop of `ParseDuration` on the input
`c :: cs` with the running total `d`: the new total and the rest of the
input, or `none` where the source returns an error.  The total is a `uint64`,
so the addition wraps at `2 ^ 64`. -/
def parseDurationStep (d : Nat) (c : Char) (cs : List Char) : Option (Nat × List Char) :=
  -- the next character must be [0-9.]
  if !(c = '.' || isDigit c) then none
  else
    -- consume [0-9]*
    match leadingInt 0 (c :: cs) with
    | none => none
    | some (v, s1) =>
      let pre := decide ((c :: cs).length ≠ s1.length)
      -- consume (\.[0-9]*)?
      let f := (fractionPart s1).1
      let scale := (fractionPart s1).2.1
      let s3 := (fractionPart s1).2.2.1
      let post := (fractionPart s1).2.2.2
      if !pre && !post then none
      else
        -- consume unit
        let u := (spanUnit s3).1
        let s4 := (spanUnit s3).2
        if u = [] then none
        else
          match unitMap (String.mk u) with
          | none => none
          | some unit =>
            if v > 2 ^ 63 / unit then none
            else
              let v1 := v * unit
              let v2 := if f > 0 then v1 + fractionTerm f unit scale else v1
              if f > 0 ∧ v2 > 2 ^ 63 then none
              else
                let d1 := (d + v2) % 2 ^ 64
                if d1 > 2 ^ 63 then none else some (d1, s4)

/-- The `for s != ""` loop of `ParseDuration`.  Every turn consumes at least
one character, so a fuel equal to the length of the input is never used up
(`parseDurationLoop_fuel`). -/
def parseDurationLoop : Nat → Nat → List Char → Option Nat
  | _, d, [] => some d
  | 0, _, _ :: _ => none
  | fuel + 1, d, c :: cs =>
    match parseDurationStep d c cs with
    | none => none
    | some (d1, s4) => parseDurationLoop fuel d1 s4

/-- Go `time.ParseDuration`; `none` stands for its error result. -/
def parseDuration (orig : String) : Option Duration :=
  let neg := orig.data.head? = some '-'
  let s := match orig.data with
    | c :: cs => if c = '-' ∨ c = '+' then cs else c :: cs
    | [] => []
  if s = ['0'] then some 0
  else if s = [] then none
  else
    match parseDurationLoop s.length 0 s with
    | none => none
    | some d =>
      if neg then some (-(d : Int))
      else if d > 2 ^ 63 - 1 then none
      else some (d : Int)

/-! ## `strconv.ParseBool` and the `flag` package -/

/-- Go `strconv.ParseBool`; `none` stands for its error result. -/
def parseBool (s : String) : Option Bool :=
  if s = "1" ∨ s = "t" ∨ s = "T" ∨ s = "TRUE" ∨ s = "true" ∨ s = "True" then some true
  else if s = "0" ∨ s = "f" ∨ s = "F" ∨ s = "FALSE" ∨ s = "false" ∨ s = "False" then some false
  else none

/-- The three flags `parseArgs` registers, each bound to one field of `cfg`. -/
inductive Flag where
  | addr
  | timeout
  | waitReady
deriving DecidableEq, Repr

/-- The map `f.formal` after the three registrations of `parseArgs`. -/
def formal (name : String) : Option Flag :=
  if name = "addr" then some Flag.addr
  else if name = "timeout" then some Flag.timeout
  else if name = "wait-ready" then some Flag.waitReady
  else none

/-- The name each flag is registered under. -/
def Flag.name : Flag → String
  | .addr => "addr"
  | .timeout => "timeout"
  | .waitReady => "wait-ready"

/-- Whether the flag's value implements `IsBoolFlag` (only `BoolVar` does). -/
def Flag.isBoolFlag : Flag → Bool
  | .waitReady => true
  | _ => false

/-- The `Set` method of the flag's value: `stringValue`, `durationValue` and
`boolValue` store into the bound field; `none` is the method's error. -/
def Flag.set (fl : Flag) (value : String) (cfg : config) : Option config :=
  match fl with
  | .addr => some { cfg with addr := value }
  | .timeout =>
    match parseDuration value with
    | some d => some { cfg with timeout := d }
    | none => none
  | .waitReady =>
    match parseBool value with
    | some b => some { cfg with waitReady := b }
    | none => none

/-- The state of a `flag.FlagSet` during `Parse`: the variables the flags are
bound to and the arguments not yet consumed (`f.args`). -/
structure FlagSet where
  cfg : config
  args : List String
deriving DecidableEq, Repr

/-- The search for the first `=` in a flag name: the text before it and the
text after it. -/
def findEq : List Char → Option (List Char × List Char)
  | [] => none
  | c :: cs =>
    if c = '=' then some ([], cs)
    else
      match findEq cs with
      | some (n, v) => some (c :: n, v)
      | none => none

/-- Go `(*FlagSet).parseOne`: the pair `(seen, err)` it returns and the flag
set it leaves behind. -/
def parseOne (f : FlagSet) : Bool × Option Error × FlagSet :=
  match f.args with
  | [] => (false, none, f)
  | s :: rest =>
    match s.data with
    | [] => (false, none, f)
    | [_] => (false, none, f)
    | c0 :: c1 :: cs =>
      if c0 ≠ '-' then (false, none, f)
      else if c1 = '-' ∧ cs = [] then
        -- "--" terminates the flags
        (false, none, { f with args := rest })
      else
        let name := if c1 = '-' then cs else c1 :: cs
        match name with
        | [] => (false, some (Error.badFlagSyntax s), f)
        | n0 :: ns =>
          if n0 = '-' ∨ n0 = '=' then (false, some (Error.badFlagSyntax s), f)
          else
            -- it's a flag. does it have an argument? (equals cannot be first)
            let split : List Char × Bool × List Char :=
              match findEq ns with
              | some (n, v) => (n0 :: n, true, v)
              | none => (n0 :: ns, false, [])
            let name := String.mk split.1
            let hasValue := split.2.1
            let value := String.mk split.2.2
            match formal name with
            | none =>
              if name = "help" ∨ name = "h" then
                (false, some Error.errHelp, { f with args := rest })
              else (false, some (Error.notDefined name), { f with args := rest })
            | some fl =>
              if fl.isBoolFlag then
                -- special case: doesn't need an arg
                match fl.set (if hasValue then value else "true") f.cfg with
                | some cfg1 => (true, none, { cfg := cfg1, args := rest })
                | none => (false, some (Error.invalidBoolValue value name), { f with args := rest })
              else if hasValue then
                match fl.set value f.cfg with
                | some cfg1 => (true, none, { cfg := cfg1, args := rest })
                | none => (false, some (Error.invalidValue value name), { f with args := rest })
              else
                -- it must have a value, which might be the next argument
                match rest with
                | [] => (false, some (Error.needsArgument name), { f with args := rest })
                | v :: rest1 =>
                  match fl.set v f.cfg with
                  | some cfg1 => (true, none, { cfg := cfg1, args := rest1 })
                  | none => (false, some (Error.invalidValue v name), { f with args := rest1 })

/-- The `for` loop of `(*FlagSet).Parse` under `ContinueOnError`.  Every turn
that continues has consumed at least one argument, so a fuel above the number
of arguments is never used up (`parseLoop_fuel`); the fuel-zero case is there
only to make the recursion structural. -/
def parseLoop : Nat → FlagSet → Option Error × FlagSet
  | 0, f => (none, f)
  | fuel + 1, f =>
    match parseOne f with
    | (true, _, f1) => parseLoop fuel f1
    | (false, none, f1) => (none, f1)
    | (false, some err, f1) => (some err, f1)

/-- Go `(*FlagSet).Parse(arguments)`. -/
def FlagSet.Parse (f : FlagSet) (arguments : List String) : Option Error × FlagSet :=
  parseLoop (arguments.length + 1) { f with args := arguments }

/-- The defaults `parseArgs` registers: writing a default into the bound
variable is what `StringVar`, `DurationVar` and `BoolVar` do. -/
def defaultConfig : config :=
  { addr := "192.168.100.1:9200", timeout := 3 * Second, waitReady := true }

/-- The source function `parseArgs`: the pair `(config, error)` it returns,
`none` for a nil error. -/
def parseArgs (args : List String) : config × Option Error :=
  let fs : FlagSet := { cfg := defaultConfig, args := [] }
  match fs.Parse args with
  | (some err, _) => (config.zero, some err)
  | (none, fs1) => (fs1.cfg, none)

/-! ## The reply messages of the `device` package

Generated protobuf code: every getter is nil-safe and returns the zero value
of the field when the receiver is absent. -/

/-- A `float32` field: a finite value `(-1)^neg * mant * 2^exp`, an
infinity, or a NaN. -/
inductive Float32 where
  | finite (neg : Bool) (mant : Nat) (exp : Int)
  | inf (neg : Bool)
  | nan
deriving DecidableEq, Repr

/-- The zero value `0` of a float field. -/
def Float32.zero : Float32 := Float32.finite false 0 0

/-- The `DishState` enum, an `int32`. -/
abbrev DishState := Int

/-- Modelled from the spec: the enum declaration is in the external `device`
package, not in this repository; the spec says the state is rendered as its
enumerated name and names `CONNECTED`.  The table is the one of the package's
`DishState` (`UNKNOWN = 0`, `CONNECTED = 1`, `SEARCHING = 2`, `BOOTING = 3`);
a number outside the table is rendered in decimal, as generated `String`
methods do. -/
def DishState.String (s : DishState) : String :=
  if s = 0 then "UNKNOWN"
  else if s = 1 then "CONNECTED"
  else if s = 2 then "SEARCHING"
  else if s = 3 then "BOOTING"
  else toString s

/-- Message `DeviceInfo`. -/
structure DeviceInfo where
  id : String
  hardwareVersion : String
  softwareVersion : String
deriving DecidableEq, Repr

/-- Message `DeviceState`; `uptimeS` is a `uint64`. -/
structure DeviceState where
  uptimeS : Nat
deriving DecidableEq, Repr

/-- Message `DishObstructionStats`. -/
structure DishObstructionStats where
  currentlyObstructed : Bool
  fractionObstructed : Float32
deriving DecidableEq, Repr

/-- Message `DishGetStatusResponse`: three optional nested groups and five
scalar fields. -/
structure DishGetStatusResponse where
  deviceInfo : Option DeviceInfo
  deviceState : Option DeviceState
  state : DishState
  obstructionStats : Option DishObstructionStats
  popPingDropRate : Float32
  popPingLatencyMs : Float32
  downlinkThroughputBps : Float32
  uplinkThroughputBps : Float32
deriving DecidableEq, Repr

/-- Message `Response`: which variant of the `response` oneof is populated.
Only the device-status variant is read; every other variant is kept by its
field number.  A device-status wrapper that carries a nil message makes
`GetDishGetStatus` return nil like an unset oneof does, and is represented
by `unset`. -/
inductive Response where
  | unset
  | dishGetStatus (status : DishGetStatusResponse)
  | other (field : Nat)
deriving DecidableEq, Repr

/-- Getter `(*Response).GetDishGetStatus`; `none` is the nil pointer. -/
def Response.GetDishGetStatus : Response → Option DishGetStatusResponse
  | .dishGetStatus status => some status
  | _ => none

/-- Getter `(*DeviceInfo).GetId`. -/
def DeviceInfo.GetId : Option DeviceInfo → String
  | some x => x.id
  | none => ""

/-- Getter `(*DeviceInfo).GetHardwareVersion`. -/
def DeviceInfo.GetHardwareVersion : Option DeviceInfo → String
  | some x => x.hardwareVersion
  | none => ""

/-- Getter `(*DeviceInfo).GetSoftwareVersion`. -/
def DeviceInfo.GetSoftwareVersion : Option DeviceInfo → String
  | some x => x.softwareVersion
  | none => ""

/-- Getter `(*DeviceState).GetUptimeS`. -/
def DeviceState.GetUptimeS : Option DeviceState → Nat
  | some x => x.uptimeS
  | none => 0

/-! ## The `fmt` verbs the program uses -/

/-- Decimal digits of `n`, left-padded with zeros to `width` characters. -/
def padZeros (width : Nat) (n : Nat) : String :=
  String.mk (List.replicate (width - (Nat.repr n).length) '0') ++ Nat.repr n

/-- The verb `%.<prec>f`: the exact value rounded to `prec` decimals, ties to
even; a sign only when the sign bit is set; `NaN`, `+Inf`, `-Inf`. -/
def fmtFixed (prec : Nat) : Float32 → String
  | .nan => "NaN"
  | .inf false => "+Inf"
  | .inf true => "-Inf"
  | .finite neg mant exp =>
    let s := scalePow2 (mant * 10 ^ prec) 1 exp
    let q := divRoundHalfEven s.1 s.2
    (if neg then "-" else "") ++ Nat.repr (q / 10 ^ prec) ++
      (if prec = 0 then "" else "." ++ padZeros prec (q % 10 ^ prec))

/-- The verb `%v` on a `bool`. -/
def fmtBool (b : Bool) : String := if b then "true" else "false"

/-- The verb `%d` on a `uint64`. -/
def fmtUint (n : Nat) : String := Nat.repr n

/-! ## Collaborators and effects of `run` -/

/-- What `run` does to the outside, in the order it does it. -/
inductive Event where
  /-- The call `dial(cfg.addr, opts...)`; the options are always the single
  plaintext-credentials option. -/
  | dial (addr : String)
  /-- The call `client.Handle(ctx, req, callOpts...)` with the `get_status`
  request, under a context that expires after `timeout`, with
  `WaitForReady(true)` among the call options iff `waitReady`. -/
  | handle (timeout : Duration) (waitReady : Bool)
  /-- One `Write` on `out`: `fmt.Fprintf` formats the whole line and hands it
  to the writer in a single call. -/
  | write (payload : String)
  /-- The call `conn.Close()`. -/
  | close
  /-- The diagnostic `close: <err>` written to standard error. -/
  | stderrClose (err : Error)
deriving DecidableEq, Repr

/-- A `*grpc.ClientConn` as `run` sees it: what the one `Handle` call returns
under a given timeout and readiness option, and what `Close` returns. -/
structure ClientConn where
  handle : Duration → Bool → Except Error Response
  close : Option Error

/-- The type `dialFn` of the source. -/
abbrev dialFn := String → Except Error ClientConn

/-- The sink `out`: given the payloads of the writes already attempted on it
and the payload of this write, the error `Write` returns (`none` for nil). -/
abbrev Writer := List String → String → Option Error

/-- The payloads of the writes on `out` in a trace, in order. -/
def writesOf : List Event → List String
  | [] => []
  | Event.write p :: es => p :: writesOf es
  | _ :: es => writesOf es

/-- Number of `Close` calls in a trace. -/
def closeCount (tr : List Event) : Nat := tr.count Event.close

/-- Whether the trace has a `Handle` call. -/
def hasHandle : List Event → Bool
  | [] => false
  | Event.handle _ _ :: _ => true
  | _ :: es => hasHandle es

/-- Whether the trace has a call of the connection factory. -/
def hasDial : List Event → Bool
  | [] => false
  | Event.dial _ :: _ => true
  | _ :: es => hasDial es

/-- One `fmt.Fprintf(out, ...)` whose formatted text is `payload`: the error
it returns and the trace extended by the write. -/
def fprintf (out : Writer) (tr : List Event) (payload : String) :
    Option Error × List Event :=
  (out (writesOf tr) payload, tr ++ [Event.write payload])

/-- Lines 62 to 140 of `run`: everything between the registration of the
deferred `Close` and the return.  The result is the returned error (`none`
for nil) and the trace of effects. -/
def runConnected (out : Writer) (cfg : config) (conn : ClientConn) :
    Option Error × List Event :=
  let tr := [Event.handle cfg.timeout cfg.waitReady]
  match conn.handle cfg.timeout cfg.waitReady with
  | Except.error err => (some (Error.wrap "handle(get_status): " err), tr)
  | Except.ok resp =>
    match resp.GetDishGetStatus with
    | none => (some (Error.errorf "unexpected response: dish_get_status is nil"), tr)
    | some status =>
      let info := status.deviceInfo
      let state := status.state
      match fprintf out tr ("ID: " ++ DeviceInfo.GetId info ++ "\n") with
      | (some err, tr) => (some err, tr)
      | (none, tr) =>
      match fprintf out tr ("HW: " ++ DeviceInfo.GetHardwareVersion info ++ "\n") with
      | (some err, tr) => (some err, tr)
      | (none, tr) =>
      match fprintf out tr ("SW: " ++ DeviceInfo.GetSoftwareVersion info ++ "\n") with
      | (some err, tr) => (some err, tr)
      | (none, tr) =>
      match fprintf out tr ("State: " ++ DishState.String state ++ "\n") with
      | (some err, tr) => (some err, tr)
      | (none, tr) =>
      match fprintf out tr
          ("Uptime (s): " ++ fmtUint (DeviceState.GetUptimeS status.deviceState) ++ "\n") with
      | (some err, tr) => (some err, tr)
      | (none, tr) =>
      match fprintf out tr
          ("Ping latency (ms): " ++ fmtFixed 2 status.popPingLatencyMs ++ "\n") with
      | (some err, tr) => (some err, tr)
      | (none, tr) =>
      match fprintf out tr ("Ping drop rate: " ++ fmtFixed 4 status.popPingDropRate ++ "\n") with
      | (some err, tr) => (some err, tr)
      | (none, tr) =>
      match fprintf out tr
          ("Downlink (bps): " ++ fmtFixed 0 status.downlinkThroughputBps ++ "\n") with
      | (some err, tr) => (some err, tr)
      | (none, tr) =>
      match fprintf out tr ("Uplink (bps): " ++ fmtFixed 0 status.uplinkThroughputBps ++ "\n") with
      | (some err, tr) => (some err, tr)
      | (none, tr) =>
      match status.obstructionStats with
      | none => (none, tr)
      | some obs =>
        match fprintf out tr ("Obstructed now: " ++ fmtBool obs.currentlyObstructed ++ "\n") with
        | (some err, tr) => (some err, tr)
        | (none, tr) =>
        match fprintf out tr
            ("Fraction obstructed: " ++ fmtFixed 4 obs.fractionObstructed ++ "\n") with
        | (some err, tr) => (some err, tr)
        | (none, tr) => (none, tr)

/-- The deferred function of `run`: `Close` is called; if it fails, the
failure goes to standard error and nowhere else. -/
def deferredClose (conn : ClientConn) : List Event :=
  match conn.close with
  | none => [Event.close]
  | some err => [Event.close, Event.stderrClose err]

/-- The source function `run`: the error it returns (`none` for nil) and the
trace of its effects.  The deferred `Close` runs after the returned value is
fixed, so it only extends the trace. -/
def run (out : Writer) (args : List String) (dial : dialFn) :
    Option Error × List Event :=
  match parseArgs args with
  | (_, some err) => (some err, [])
  | (cfg, none) =>
    match dial cfg.addr with
    | Except.error err => (some (Error.wrap "create client: " err), [Event.dial cfg.addr])
    | Except.ok conn =>
      let r := runConnected out cfg conn
      (r.1, Event.dial cfg.addr :: r.2 ++ deferredClose conn)

/-! ## Reference definitions used to state results about `run` -/

/-- The lines section 4.4 of the specification lists for a device-status
reply, in its order: nine fixed lines, then the two obstruction lines when the
group is present. -/
def statusLines (status : DishGetStatusResponse) : List String :=
  [ "ID: " ++ DeviceInfo.GetId status.deviceInfo ++ "\n",
    "HW: " ++ DeviceInfo.GetHardwareVersion status.deviceInfo ++ "\n",
    "SW: " ++ DeviceInfo.GetSoftwareVersion status.deviceInfo ++ "\n",
    "State: " ++ DishState.String status.state ++ "\n",
    "Uptime (s): " ++ fmtUint (DeviceState.GetUptimeS status.deviceState) ++ "\n",
    "Ping latency (ms): " ++ fmtFixed 2 status.popPingLatencyMs ++ "\n",
    "Ping drop rate: " ++ fmtFixed 4 status.popPingDropRate ++ "\n",
    "Downlink (bps): " ++ fmtFixed 0 status.downlinkThroughputBps ++ "\n",
    "Uplink (bps): " ++ fmtFixed 0 status.uplinkThroughputBps ++ "\n" ] ++
  (match status.obstructionStats with
   | none => []
   | some obs =>
     [ "Obstructed now: " ++ fmtBool obs.currentlyObstructed ++ "\n",
       "Fraction obstructed: " ++ fmtFixed 4 obs.fractionObstructed ++ "\n" ])

/-- Writing a list of lines one `Fprintf` at a time, stopping at the first
write that fails. -/
def writeAll (out : Writer) : List Event → List String → Option Error × List Event
  | tr, [] => (none, tr)
  | tr, l :: ls =>
    match fprintf out tr l with
    | (some err, tr1) => (some err, tr1)
    | (none, tr1) => writeAll out tr1 ls

/-- A sink that accepts every write. -/
def acceptAll : Writer := fun _ _ => none

/-- A sink that fails its `k`-th write (counted from 1) with `err` and accepts
every other write. -/
def failAt (k : Nat) (err : Error) : Writer :=
  fun hist _ => if hist.length + 1 = k then some err else none

/-- The connection factory that always returns `conn`. -/
def dialTo (conn : ClientConn) : dialFn := fun _ => Except.ok conn

/-- A connection whose `Handle` returns `resp` and whose `Close` returns
`closeErr`. -/
def connWith (resp : Response) (closeErr : Option Error) : ClientConn :=
  { handle := fun _ _ => Except.ok resp, close := closeErr }

/-- The reply of the scenario in section 8 of the specification; the decimal
values are the nearest `float32` values. -/
def scenarioStatus : DishGetStatusResponse :=
  { deviceInfo := some { id := "abc123", hardwareVersion := "rev2", softwareVersion := "2024.01" },
    deviceState := some { uptimeS := 3600 },
    state := 1,
    obstructionStats := some
      { currentlyObstructed := false, fractionObstructed := Float32.finite false 10307922 (-35) },
    popPingDropRate := Float32.finite false 10307922 (-33),
    popPingLatencyMs := Float32.finite false 13369344 (-19),
    downlinkThroughputBps := Float32.finite false 9375000 4,
    uplinkThroughputBps := Float32.finite false 12000000 0 }

/-- Whether the token has the shape of a flag called `name`: `-name`,
`--name`, `-name=value` or `--name=value`. -/
def namesFlag (name tok : String) : Bool :=
  tok.data == '-' :: name.data ||
  tok.data == '-' :: '-' :: name.data ||
  ('-' :: name.data ++ ['=']).isPrefixOf tok.data ||
  ('-' :: '-' :: name.data ++ ['=']).isPrefixOf tok.data

/-- The text after the first `=` of a token, if it has one. -/
def afterEq (tok : String) : Option String :=
  match findEq tok.data with
  | some (_, v) => some (String.mk v)
  | none => none

/-- One flag given on the command line with its value. -/
inductive Setting where
  | addr (a : String)
  | timeout (d : String)
  | waitReady (b : Bool)
deriving DecidableEq, Repr

/-- The tokens that supply a setting: a string or duration flag followed by
its value as the next token, a boolean flag with its value attached by `=`. -/
def Setting.tokens : Setting → List String
  | .addr a => ["--addr", a]
  | .timeout d => ["--timeout", d]
  | .waitReady b => ["--wait-ready=" ++ fmtBool b]

/-- A setting is well formed when its duration text is one `ParseDuration`
accepts. -/
def Setting.wellFormed : Setting → Bool
  | .timeout d => (parseDuration d).isSome
  | _ => true

/-- The configuration after a setting is applied. -/
def Setting.apply (cfg : config) : Setting → config
  | .addr a => { cfg with addr := a }
  | .timeout d => { cfg with timeout := (parseDuration d).getD cfg.timeout }
  | .waitReady b => { cfg with waitReady := b }

/-- The tokens of a list of settings, in order. -/
def settingsTokens : List Setting → List String
  | [] => []
  | s :: ss => s.tokens ++ settingsTokens ss

/-- The validity condition the specification puts on a configuration:
`timeout > 0`. -/
def config.timeoutPositive (cfg : config) : Prop := 0 < cfg.timeout

instance (cfg : config) : Decidable cfg.timeoutPositive :=
  inferInstanceAs (Decidable (0 < cfg.timeout))

/-! ## Lemmas -/

theorem writesOf_append (a b : List Event) : writesOf (a ++ b) = writesOf a ++ writesOf b := by
  induction a with
  | nil => rfl
  | cons e es ih => cases e <;> simp [writesOf, ih]

theorem writesOf_map_write (ls : List String) : writesOf (ls.map Event.write) = ls := by
  induction ls with
  | nil => rfl
  | cons l ls ih => simp [writesOf, ih]

/-- The formatting part of `run` is `writeAll` on `statusLines`. -/
theorem runConnected_eq_writeAll (out : Writer) (cfg : config) (conn : ClientConn)
    (resp : Response) (status : DishGetStatusResponse)
    (hrpc : conn.handle cfg.timeout cfg.waitReady = Except.ok resp)
    (hst : resp.GetDishGetStatus = some status) :
    runConnected out cfg conn =
      writeAll out [Event.handle cfg.timeout cfg.waitReady] (statusLines status) := by
  unfold runConnected
  simp only [hrpc, hst, statusLines]
  cases hobs : status.obstructionStats <;>
    simp only [writeAll, List.cons_append, List.nil_append, List.append_nil]

/-- When the first `k` writes are accepted and the next one fails, `writeAll`
stops right after the failing write and returns its error. -/
theorem writeAll_fail (out : Writer) (err : Error) :
    ∀ (ls : List String) (tr : List Event) (k : Nat) (l : String),
      ls.get? k = some l →
      (∀ i p, i < k → ls.get? i = some p → out (writesOf tr ++ ls.take i) p = none) →
      out (writesOf tr ++ ls.take k) l = some err →
      writeAll out tr ls = (some err, tr ++ (ls.take (k + 1)).map Event.write) := by
  intro ls
  induction ls with
  | nil => intro tr k l hk; simp at hk
  | cons a ls ih =>
    intro tr k l hk hpre hfail
    cases k with
    | zero =>
      simp only [List.get?_cons_zero, Option.some.injEq] at hk
      subst hk
      simp only [List.take_zero, List.append_nil] at hfail
      simp [writeAll, fprintf, hfail]
    | succ k =>
      have h0 : out (writesOf tr) a = none := by
        have := hpre 0 a (Nat.succ_pos k) rfl
        simpa using this
      have hk1 : ls.get? k = some l := by simpa using hk
      have hw : writesOf (tr ++ [Event.write a]) = writesOf tr ++ [a] := by
        simp [writesOf_append, writesOf]
      have := ih (tr ++ [Event.write a]) k l hk1
        (by
          intro i p hi hp
          have := hpre (i + 1) p (Nat.succ_lt_succ hi) (by simpa using hp)
          simpa [hw, List.append_assoc] using this)
        (by simpa [hw, List.append_assoc] using hfail)
      simp [writeAll, fprintf, h0, this, List.append_assoc]

/-- When every write is accepted, `writeAll` writes every line and returns
nil. -/
theorem writeAll_ok (out : Writer) :
    ∀ (ls : List String) (tr : List Event),
      (∀ i p, ls.get? i = some p → out (writesOf tr ++ ls.take i) p = none) →
      writeAll out tr ls = (none, tr ++ ls.map Event.write) := by
  intro ls
  induction ls with
  | nil => intro tr _; simp [writeAll]
  | cons a ls ih =>
    intro tr hall
    have h0 : out (writesOf tr) a = none := by
      have := hall 0 a rfl
      simpa using this
    have hw : writesOf (tr ++ [Event.write a]) = writesOf tr ++ [a] := by
      simp [writesOf_append, writesOf]
    have := ih (tr ++ [Event.write a])
      (by
        intro i p hp
        have := hall (i + 1) p (by simpa using hp)
        simpa [hw, List.append_assoc] using this)
    simp [writeAll, fprintf, h0, this, List.append_assoc]

/-- The trace of `writeAll` only ever grows by writes. -/
theorem writeAll_trace (out : Writer) :
    ∀ (ls : List String) (tr : List Event),
      ∃ ws : List String, (writeAll out tr ls).2 = tr ++ ws.map Event.write := by
  intro ls
  induction ls with
  | nil => intro tr; exact ⟨[], by simp [writeAll]⟩
  | cons a ls ih =>
    intro tr
    cases h : out (writesOf tr) a with
    | some err => exact ⟨[a], by simp [writeAll, fprintf, h]⟩
    | none =>
      obtain ⟨ws, hws⟩ := ih (tr ++ [Event.write a])
      exact ⟨a :: ws, by simp [writeAll, fprintf, h, hws, List.append_assoc]⟩

theorem statusLines_length (status : DishGetStatusResponse) :
    (statusLines status).length = if status.obstructionStats.isSome then 11 else 9 := by
  unfold statusLines
  cases status.obstructionStats <;> simp

/-- The result of `run` once arguments parse and the factory returns a
connection. -/
theorem run_connected (out : Writer) (args : List String) (dial : dialFn) (cfg : config)
    (conn : ClientConn) (hargs : parseArgs args = (cfg, none))
    (hdial : dial cfg.addr = Except.ok conn) :
    run out args dial =
      ((runConnected out cfg conn).1,
        Event.dial cfg.addr :: (runConnected out cfg conn).2 ++ deferredClose conn) := by
  simp [run, hargs, hdial]

/-- The result of `run` on a device-status reply. -/
theorem run_status (out : Writer) (args : List String) (dial : dialFn) (cfg : config)
    (conn : ClientConn) (resp : Response) (status : DishGetStatusResponse)
    (hargs : parseArgs args = (cfg, none)) (hdial : dial cfg.addr = Except.ok conn)
    (hrpc : conn.handle cfg.timeout cfg.waitReady = Except.ok resp)
    (hst : resp.GetDishGetStatus = some status) :
    run out args dial =
      ((writeAll out [Event.handle cfg.timeout cfg.waitReady] (statusLines status)).1,
        Event.dial cfg.addr ::
          (writeAll out [Event.handle cfg.timeout cfg.waitReady] (statusLines status)).2 ++
          deferredClose conn) := by
  rw [run_connected out args dial cfg conn hargs hdial,
    runConnected_eq_writeAll out cfg conn resp status hrpc hst]

theorem writesOf_deferredClose (conn : ClientConn) : writesOf (deferredClose conn) = [] := by
  unfold deferredClose
  cases conn.close <;> rfl

theorem closeCount_deferredClose (conn : ClientConn) : closeCount (deferredClose conn) = 1 := by
  unfold deferredClose closeCount
  cases conn.close <;> simp

theorem closeCount_map_write (ws : List String) : closeCount (ws.map Event.write) = 0 := by
  induction ws with
  | nil => rfl
  | cons w ws ih => simpa [closeCount, List.count_cons] using ih

/-- Every trace of `runConnected` is the `Handle` call followed by writes. -/
theorem runConnected_trace (out : Writer) (cfg : config) (conn : ClientConn) :
    ∃ ws : List String,
      (runConnected out cfg conn).2 =
        Event.handle cfg.timeout cfg.waitReady :: ws.map Event.write := by
  cases hrpc : conn.handle cfg.timeout cfg.waitReady with
  | error err => exact ⟨[], by simp [runConnected, hrpc]⟩
  | ok resp =>
    cases hst : resp.GetDishGetStatus with
    | none => exact ⟨[], by simp [runConnected, hrpc, hst]⟩
    | some status =>
      rw [runConnected_eq_writeAll out cfg conn resp status hrpc hst]
      obtain ⟨ws, hws⟩ := writeAll_trace out (statusLines status)
        [Event.handle cfg.timeout cfg.waitReady]
      exact ⟨ws, by simpa using hws⟩

/-- The returned error of `runConnected` does not depend on what `Close`
returns. -/
theorem runConnected_close_irrelevant (out : Writer) (cfg : config) (conn : ClientConn)
    (c : Option Error) :
    runConnected out cfg { conn with close := c } = runConnected out cfg conn := by
  rfl

/-- On a device-status reply and a sink that accepts every write, `run`
returns nil and writes exactly `statusLines`. -/
theorem run_accepting (out : Writer) (args : List String) (dial : dialFn) (cfg : config)
    (conn : ClientConn) (resp : Response) (status : DishGetStatusResponse)
    (hargs : parseArgs args = (cfg, none)) (hdial : dial cfg.addr = Except.ok conn)
    (hrpc : conn.handle cfg.timeout cfg.waitReady = Except.ok resp)
    (hst : resp.GetDishGetStatus = some status)
    (hout : ∀ hist p, out hist p = none) :
    (run out args dial).1 = none ∧ writesOf (run out args dial).2 = statusLines status := by
  have hall := writeAll_ok out (statusLines status) [Event.handle cfg.timeout cfg.waitReady]
    (fun _ p _ => hout _ p)
  rw [run_status out args dial cfg conn resp status hargs hdial hrpc hst, hall]
  refine ⟨rfl, ?_⟩
  show writesOf ([Event.dial cfg.addr] ++
    ([Event.handle cfg.timeout cfg.waitReady] ++ (statusLines status).map Event.write) ++
      deferredClose conn) = statusLines status
  rw [writesOf_append, writesOf_append, writesOf_append, writesOf_map_write,
    writesOf_deferredClose, List.append_nil]
  rfl

/-! ### Lemmas about the flag parser -/

theorem findEq_some : ∀ {l n v : List Char}, findEq l = some (n, v) → l = n ++ '=' :: v ∧ '=' ∉ n := by
  intro l
  induction l with
  | nil => intro n v h; simp [findEq] at h
  | cons c cs ih =>
    intro n v h
    unfold findEq at h
    by_cases hc : c = '='
    · simp [hc] at h
      obtain ⟨rfl, rfl⟩ := h
      simp [hc]
    · simp only [hc, if_false] at h
      cases hf : findEq cs with
      | none => simp [hf] at h
      | some r =>
        obtain ⟨n1, v1⟩ := r
        simp only [hf, Option.some.injEq, Prod.mk.injEq] at h
        obtain ⟨rfl, rfl⟩ := h
        obtain ⟨h1, h2⟩ := ih hf
        refine ⟨by simp [h1], ?_⟩
        simp only [List.mem_cons, not_or]
        exact ⟨fun h => hc h.symm, h2⟩

theorem findEq_none : ∀ {l : List Char}, findEq l = none → '=' ∉ l := by
  intro l
  induction l with
  | nil => intro _; simp
  | cons c cs ih =>
    intro h
    unfold findEq at h
    by_cases hc : c = '='
    · simp [hc] at h
    · simp only [hc, if_false] at h
      cases hf : findEq cs with
      | none =>
        simp only [List.mem_cons, not_or]
        exact ⟨fun h => hc h.symm, ih hf⟩
      | some r => obtain ⟨n1, v1⟩ := r; simp [hf] at h

theorem findEq_append : ∀ (n v : List Char), '=' ∉ n → findEq (n ++ '=' :: v) = some (n, v) := by
  intro n
  induction n with
  | nil => intro v _; simp [findEq]
  | cons c cs ih =>
    intro v h
    simp only [List.mem_cons, not_or] at h
    have hc : ¬ c = '=' := fun hh => h.1 hh.symm
    simp [findEq, hc, ih v h.2]

theorem findEq_of_not_mem : ∀ (l : List Char), '=' ∉ l → findEq l = none := by
  intro l
  induction l with
  | nil => intro _; rfl
  | cons c cs ih =>
    intro h
    simp only [List.mem_cons, not_or] at h
    have hc : ¬ c = '=' := fun hh => h.1 hh.symm
    simp [findEq, hc, ih h.2]

theorem parseOne_seen (f f1 : FlagSet) (e : Option Error) (h : parseOne f = (true, e, f1)) :
    ∃ (s : String) (rest : List String) (c1 : Char) (cs : List Char) (n0 : Char)
      (ns : List Char) (fl : Flag),
      f.args = s :: rest ∧ s.data = '-' :: c1 :: cs ∧
      (if c1 = '-' then cs else c1 :: cs) = n0 :: ns ∧ n0 ≠ '-' ∧ n0 ≠ '=' ∧ e = none ∧
      ((∃ n v, findEq ns = some (n, v) ∧ formal (String.mk (n0 :: n)) = some fl ∧
          fl.set (String.mk v) f.cfg = some f1.cfg ∧ f1.args = rest) ∨
       (findEq ns = none ∧ formal (String.mk (n0 :: ns)) = some fl ∧ fl.isBoolFlag = true ∧
          fl.set "true" f.cfg = some f1.cfg ∧ f1.args = rest) ∨
       (findEq ns = none ∧ formal (String.mk (n0 :: ns)) = some fl ∧ fl.isBoolFlag = false ∧
          ∃ v rest1, rest = v :: rest1 ∧ fl.set v f.cfg = some f1.cfg ∧ f1.args = rest1)) := by
  obtain ⟨cfg, args⟩ := f
  cases args with
  | nil => simp [parseOne] at h
  | cons s rest =>
    rcases hs : s.data with _ | ⟨c0, _ | ⟨c1, cs⟩⟩
    · simp [parseOne, hs] at h
    · simp [parseOne, hs] at h
    · by_cases hc0 : c0 = '-'
      swap
      · simp [parseOne, hs, hc0] at h
      subst hc0
      by_cases hterm : c1 = '-' ∧ cs = []
      · simp [parseOne, hs, hterm] at h
      rcases hname : (if c1 = '-' then cs else c1 :: cs) with _ | ⟨n0, ns⟩
      · simp [parseOne, hs, hterm, hname] at h
      by_cases hn0 : n0 = '-' ∨ n0 = '='
      · simp [parseOne, hs, hterm, hname, hn0] at h
      refine ⟨s, rest, c1, cs, n0, ns, ?_⟩
      simp only [parseOne, hs, hterm, hname, hn0] at h
      simp only [ne_eq, not_true_eq_false, if_false] at h
      simp only [not_or] at hn0
      cases hfe : findEq ns with
      | some r =>
        obtain ⟨n, v⟩ := r
        simp only [hfe] at h
        cases hfl : formal (String.mk (n0 :: n)) with
        | none =>
          simp only [hfl] at h
          split at h <;> simp at h
        | some fl =>
          simp only [hfl, if_true] at h
          refine ⟨fl, rfl, hs, hname, hn0.1, hn0.2, ?_⟩
          cases hset : fl.set (String.mk v) cfg with
          | none =>
            simp only [hset] at h
            split at h <;> simp at h
          | some cfg1 =>
            simp only [hset, ite_self, Prod.mk.injEq, true_and] at h
            obtain ⟨he, rfl⟩ := h
            exact ⟨he.symm, Or.inl ⟨n, v, rfl, hfl, hset, rfl⟩⟩
      | none =>
        simp only [hfe] at h
        cases hfl : formal (String.mk (n0 :: ns)) with
        | none =>
          simp only [hfl] at h
          split at h <;> simp at h
        | some fl =>
          simp only [hfl] at h
          refine ⟨fl, rfl, hs, hname, hn0.1, hn0.2, ?_⟩
          by_cases hb : fl.isBoolFlag = true
          · simp only [hb, if_true, Bool.false_eq_true, if_false] at h
            cases hset : fl.set "true" cfg with
            | none => simp [hset] at h
            | some cfg1 =>
              simp only [hset, Prod.mk.injEq, true_and] at h
              obtain ⟨he, rfl⟩ := h
              exact ⟨he.symm, Or.inr (Or.inl ⟨rfl, rfl, hb, rfl, rfl⟩)⟩
          · simp only [hb, Bool.false_eq_true, if_false] at h
            cases rest with
            | nil => simp at h
            | cons v rest1 =>
              cases hset : fl.set v cfg with
              | none => simp [hset] at h
              | some cfg1 =>
                simp only [hset, Prod.mk.injEq, true_and] at h
                obtain ⟨he, rfl⟩ := h
                exact ⟨he.symm, Or.inr (Or.inr
                  ⟨rfl, rfl, by simpa using hb, v, rest1, rfl, hset, rfl⟩)⟩

theorem parseOne_not_seen_cfg (f f1 : FlagSet) (e : Option Error)
    (h : parseOne f = (false, e, f1)) : f1.cfg = f.cfg := by
  obtain ⟨cfg, args⟩ := f
  unfold parseOne at h
  simp only at h
  repeat' split at h
  all_goals first
    | (simp only [Prod.mk.injEq] at h; obtain ⟨-, -, rfl⟩ := h; rfl)
    | simp at h

theorem formal_some {x : String} {fl : Flag} (h : formal x = some fl) : x = fl.name := by
  unfold formal at h
  split at h
  · cases h; assumption
  · split at h
    · cases h; assumption
    · split at h
      · cases h; assumption
      · cases h

theorem namesFlag_of_data (name tok : String) (tail : List Char)
    (h : tok.data = '-' :: name.data ++ tail ∨ tok.data = '-' :: '-' :: name.data ++ tail)
    (ht : tail = [] ∨ ∃ v, tail = '=' :: v) : namesFlag name tok = true := by
  unfold namesFlag
  rcases ht with rfl | ⟨v, rfl⟩
  · rcases h with h | h <;> simp [h]
  · rcases h with h | h
    · have : '-' :: (name.data ++ ['=']) <+: tok.data := ⟨v, by simp [h]⟩
      simp [this]
    · have : '-' :: '-' :: (name.data ++ ['=']) <+: tok.data := ⟨v, by simp [h]⟩
      simp [this]

theorem afterEq_of_data (tok : String) (pre v : List Char) (h : tok.data = pre ++ '=' :: v)
    (hpre : '=' ∉ pre) : afterEq tok = some (String.mk v) := by
  unfold afterEq
  rw [h, findEq_append pre v hpre]

/-- What a successful `parseOne` did, in terms of the token it read. -/
theorem parseOne_seen_token (f f1 : FlagSet) (e : Option Error)
    (h : parseOne f = (true, e, f1)) :
    ∃ (s : String) (rest : List String) (fl : Flag) (value : String),
      f.args = s :: rest ∧ namesFlag fl.name s = true ∧
      fl.set value f.cfg = some f1.cfg ∧
      ((afterEq s = some value ∧ f1.args = rest) ∨
       (fl.isBoolFlag = true ∧ value = "true" ∧ f1.args = rest) ∨
       (rest = value :: f1.args)) := by
  obtain ⟨s, rest, c1, cs, n0, ns, fl, hargs, hs, hname, hn0, hn0e, -, hcase⟩ :=
    parseOne_seen f f1 e h
  -- the token is one or two dashes followed by the name characters
  have hshape : s.data = '-' :: n0 :: ns ∨ s.data = '-' :: '-' :: n0 :: ns := by
    by_cases hc1 : c1 = '-'
    · rw [if_pos hc1] at hname
      right; rw [hs, hc1, hname]
    · rw [if_neg hc1] at hname
      left; rw [hs, hname]
  rcases hcase with ⟨n, v, hfe, hfl, hset, hrest⟩ | ⟨hfe, hfl, hb, hset, hrest⟩ |
      ⟨hfe, hfl, hb, v, rest1, hr, hset, hrest⟩
  · obtain ⟨hns, hnot⟩ := findEq_some hfe
    have hnm := formal_some hfl
    refine ⟨s, rest, fl, String.mk v, hargs, ?_, hset, Or.inl ⟨?_, hrest⟩⟩
    · apply namesFlag_of_data fl.name s ('=' :: v) _ (Or.inr ⟨v, rfl⟩)
      rw [← hnm]
      rcases hshape with h1 | h1
      · left; rw [h1, hns]; simp
      · right; rw [h1, hns]; simp
    · rcases hshape with h1 | h1
      · apply afterEq_of_data s ('-' :: n0 :: n) v (by rw [h1, hns]; simp)
        simp only [List.mem_cons, not_or]
        exact ⟨by decide, fun hh => hn0e hh.symm, hnot⟩
      · apply afterEq_of_data s ('-' :: '-' :: n0 :: n) v (by rw [h1, hns]; simp)
        simp only [List.mem_cons, not_or]
        exact ⟨by decide, by decide, fun hh => hn0e hh.symm, hnot⟩
  · have hnm := formal_some hfl
    refine ⟨s, rest, fl, "true", hargs, ?_, hset, Or.inr (Or.inl ⟨hb, rfl, hrest⟩)⟩
    apply namesFlag_of_data fl.name s [] _ (Or.inl rfl)
    rw [← hnm]
    rcases hshape with h1 | h1
    · left; rw [h1]; simp
    · right; rw [h1]; simp
  · have hnm := formal_some hfl
    refine ⟨s, rest, fl, v, hargs, ?_, hset, Or.inr (Or.inr (by rw [hr, hrest]))⟩
    apply namesFlag_of_data fl.name s [] _ (Or.inl rfl)
    rw [← hnm]
    rcases hshape with h1 | h1
    · left; rw [h1]; simp
    · right; rw [h1]; simp

theorem parseOne_seen_length (f f1 : FlagSet) (e : Option Error)
    (h : parseOne f = (true, e, f1)) :
    f1.args.length < f.args.length ∧ ∀ t ∈ f1.args, t ∈ f.args := by
  obtain ⟨s, rest, fl, value, hargs, -, -, hcase⟩ := parseOne_seen_token f f1 e h
  rw [hargs]
  rcases hcase with ⟨-, hr⟩ | ⟨-, -, hr⟩ | hr
  · rw [hr]; exact ⟨by simp, fun t ht => List.mem_cons_of_mem _ ht⟩
  · rw [hr]; exact ⟨by simp, fun t ht => List.mem_cons_of_mem _ ht⟩
  · rw [hr]
    exact ⟨by simp only [List.length_cons]; omega,
      fun t ht => List.mem_cons_of_mem _ (List.mem_cons_of_mem _ ht)⟩

/-- Fuel above the number of arguments is never used up: the loop gives the
same result for every such fuel. -/
theorem parseLoop_fuel : ∀ (n m : Nat) (f : FlagSet),
    f.args.length < n → f.args.length < m → parseLoop n f = parseLoop m f := by
  intro n
  induction n with
  | zero => intro m f h; omega
  | succ n ih =>
    intro m f hn hm
    cases m with
    | zero => omega
    | succ m =>
      unfold parseLoop
      rcases hp : parseOne f with ⟨seen, e, f1⟩
      cases seen with
      | false => cases e <;> rfl
      | true =>
        have hl := (parseOne_seen_length f f1 e hp).1
        simp only
        exact ih m f1 (by omega) (by omega)

/-- An invariant of the flag set that every successful `parseOne` preserves
holds of the flag set `Parse` ends with. -/
theorem parseLoop_induct (P : FlagSet → Prop) (Q : config → Prop)
    (hstep : ∀ f e f1, parseOne f = (true, e, f1) → P f → P f1)
    (hQ : ∀ f, P f → Q f.cfg) :
    ∀ (n : Nat) (f : FlagSet), P f → Q (parseLoop n f).2.cfg := by
  intro n
  induction n with
  | zero => intro f hf; exact hQ f hf
  | succ n ih =>
    intro f hf
    unfold parseLoop
    rcases hp : parseOne f with ⟨seen, e, f1⟩
    cases seen with
    | true => exact ih f1 (hstep f e f1 hp hf)
    | false =>
      have hcfg := parseOne_not_seen_cfg f f1 e hp
      cases e with
      | none => simp only; rw [hcfg]; exact hQ f hf
      | some err => simp only; rw [hcfg]; exact hQ f hf

theorem parseArgs_ok_cfg (args : List String) (cfg : config)
    (h : parseArgs args = (cfg, none)) :
    cfg = (parseLoop (args.length + 1) { cfg := defaultConfig, args := args }).2.cfg := by
  unfold parseArgs FlagSet.Parse at h
  simp only at h
  split at h
  · simp at h
  · rename_i fs1 heq
    simp only [Prod.mk.injEq, and_true] at h
    rw [heq, ← h]

theorem Flag.set_addr_of_ne {fl : Flag} {value : String} {c c1 : config}
    (h : fl.set value c = some c1) (hne : fl ≠ Flag.addr) : c1.addr = c.addr := by
  cases fl with
  | addr => exact absurd rfl hne
  | timeout =>
    unfold Flag.set at h
    simp only at h
    split at h
    · cases h; rfl
    · cases h
  | waitReady =>
    unfold Flag.set at h
    simp only at h
    split at h
    · cases h; rfl
    · cases h

theorem Flag.set_timeout_of_ne {fl : Flag} {value : String} {c c1 : config}
    (h : fl.set value c = some c1) (hne : fl ≠ Flag.timeout) : c1.timeout = c.timeout := by
  cases fl with
  | timeout => exact absurd rfl hne
  | addr =>
    unfold Flag.set at h
    cases h; rfl
  | waitReady =>
    unfold Flag.set at h
    simp only at h
    split at h
    · cases h; rfl
    · cases h

theorem Flag.set_waitReady_of_ne {fl : Flag} {value : String} {c c1 : config}
    (h : fl.set value c = some c1) (hne : fl ≠ Flag.waitReady) :
    c1.waitReady = c.waitReady := by
  cases fl with
  | waitReady => exact absurd rfl hne
  | addr =>
    unfold Flag.set at h
    cases h; rfl
  | timeout =>
    unfold Flag.set at h
    simp only at h
    split at h
    · cases h; rfl
    · cases h

theorem Flag.set_timeout {value : String} {c c1 : config}
    (h : Flag.timeout.set value c = some c1) : parseDuration value = some c1.timeout := by
  unfold Flag.set at h
  simp only at h
  split at h
  · rename_i d hd
    cases h
    exact hd
  · cases h

/-- A field stays as it was when no remaining argument names its flag. -/
theorem parseLoop_field_unchanged (fl0 : Flag) (proj : config → α)
    (hproj : ∀ (fl : Flag) (value : String) (c c1 : config),
      fl.set value c = some c1 → fl ≠ fl0 → proj c1 = proj c)
    (n : Nat) (f : FlagSet) (h : ∀ t ∈ f.args, namesFlag fl0.name t = false) :
    proj (parseLoop n f).2.cfg = proj f.cfg := by
  refine parseLoop_induct
    (fun g => (∀ t ∈ g.args, namesFlag fl0.name t = false) ∧ proj g.cfg = proj f.cfg)
    (fun c => proj c = proj f.cfg) ?_ (fun g hg => hg.2) n f ⟨h, rfl⟩
  intro g e g1 hp ⟨hargs, hcfg⟩
  obtain ⟨s, rest, fl, value, hga, hnames, hset, -⟩ := parseOne_seen_token g g1 e hp
  have hsub := (parseOne_seen_length g g1 e hp).2
  refine ⟨fun t ht => hargs t (hsub t ht), ?_⟩
  have hne : fl ≠ fl0 := by
    intro heq
    have := hargs s (by rw [hga]; exact List.mem_cons_self _ _)
    rw [← heq, hnames] at this
    cases this
  rw [hproj fl value g.cfg g1.cfg hset hne, hcfg]

/-- The timeout stays positive when every value the arguments can supply is
a positive duration. -/
theorem parseLoop_timeout_pos (n : Nat) (f : FlagSet)
    (hargs : ∀ t ∈ f.args,
      (∀ d, parseDuration t = some d → 0 < d) ∧
      (∀ v d, afterEq t = some v → parseDuration v = some d → 0 < d))
    (hpos : 0 < f.cfg.timeout) :
    0 < (parseLoop n f).2.cfg.timeout := by
  refine parseLoop_induct
    (fun g => (∀ t ∈ g.args,
      (∀ d, parseDuration t = some d → 0 < d) ∧
      (∀ v d, afterEq t = some v → parseDuration v = some d → 0 < d)) ∧ 0 < g.cfg.timeout)
    (fun c => 0 < c.timeout) ?_ (fun g hg => hg.2) n f ⟨hargs, hpos⟩
  intro g e g1 hp ⟨hga, hgp⟩
  obtain ⟨s, rest, fl, value, hgs, -, hset, hcase⟩ := parseOne_seen_token g g1 e hp
  have hsub := (parseOne_seen_length g g1 e hp).2
  refine ⟨fun t ht => hga t (hsub t ht), ?_⟩
  by_cases hfl : fl = Flag.timeout
  · subst hfl
    have hd := Flag.set_timeout hset
    have hs := hga s (by rw [hgs]; exact List.mem_cons_self _ _)
    rcases hcase with ⟨hae, -⟩ | ⟨hb, -, -⟩ | hr
    · exact hs.2 value _ hae hd
    · cases hb
    · have hv := hga value (by rw [hgs, hr]; simp)
      exact hv.1 _ hd
  · rw [Flag.set_timeout_of_ne hset hfl]
    exact hgp

theorem parseLoop_seen (cfg cfg1 : config) (args args1 : List String) (e : Option Error)
    (h : parseOne { cfg := cfg, args := args } = (true, e, { cfg := cfg1, args := args1 })) :
    parseLoop (args.length + 1) { cfg := cfg, args := args } =
      parseLoop (args1.length + 1) { cfg := cfg1, args := args1 } := by
  have hl := (parseOne_seen_length _ _ e h).1
  conv_lhs => unfold parseLoop
  simp only [h]
  exact parseLoop_fuel _ _ _ hl (Nat.lt_succ_self _)

theorem parseLoop_stop (cfg : config) (args : List String) (e : Option Error) (f1 : FlagSet)
    (h : parseOne { cfg := cfg, args := args } = (false, e, f1)) :
    parseLoop (args.length + 1) { cfg := cfg, args := args } = (e, f1) := by
  conv_lhs => unfold parseLoop
  simp only [h]
  cases e <;> rfl

theorem parseOne_addr (cfg : config) (a : String) (rest : List String) :
    parseOne { cfg := cfg, args := "--addr" :: a :: rest } =
      (true, none, { cfg := { cfg with addr := a }, args := rest }) := rfl

theorem parseOne_timeout (cfg : config) (d : String) (rest : List String) :
    parseOne { cfg := cfg, args := "--timeout" :: d :: rest } =
      (match parseDuration d with
       | some x => (true, none, { cfg := { cfg with timeout := x }, args := rest })
       | none => (false, some (Error.invalidValue d "timeout"), { cfg := cfg, args := rest })) := by
  cases h : parseDuration d with
  | some x =>
    have : Flag.timeout.set d cfg = some { cfg with timeout := x } := by
      simp [Flag.set, h]
    show (match Flag.timeout.set d cfg with
      | some cfg1 => (true, none, ({ cfg := cfg1, args := rest } : FlagSet))
      | none => (false, some (Error.invalidValue d "timeout"), { cfg := cfg, args := rest })) = _
    rw [this]
  | none =>
    have : Flag.timeout.set d cfg = none := by
      simp [Flag.set, h]
    show (match Flag.timeout.set d cfg with
      | some cfg1 => (true, none, ({ cfg := cfg1, args := rest } : FlagSet))
      | none => (false, some (Error.invalidValue d "timeout"), { cfg := cfg, args := rest })) = _
    rw [this]

theorem parseOne_waitReady (cfg : config) (b : Bool) (rest : List String) :
    parseOne { cfg := cfg, args := ("--wait-ready=" ++ fmtBool b) :: rest } =
      (true, none, { cfg := { cfg with waitReady := b }, args := rest }) := by
  cases b <;> rfl

theorem parseOne_setting (cfg : config) (s : Setting) (rest : List String)
    (hs : s.wellFormed = true) :
    parseOne { cfg := cfg, args := s.tokens ++ rest } =
      (true, none, { cfg := s.apply cfg, args := rest }) := by
  cases s with
  | addr a => exact parseOne_addr cfg a rest
  | waitReady b => exact parseOne_waitReady cfg b rest
  | timeout d =>
    simp only [Setting.wellFormed, Option.isSome_iff_exists] at hs
    obtain ⟨x, hx⟩ := hs
    show parseOne { cfg := cfg, args := "--timeout" :: d :: rest } = _
    rw [parseOne_timeout, hx]
    simp [Setting.apply, hx]

/-- Parsing well-formed settings applies them in order and goes on with the
arguments that follow. -/
theorem parseLoop_settings : ∀ (ss : List Setting) (cfg : config) (rest : List String),
    (∀ s ∈ ss, s.wellFormed = true) →
    parseLoop ((settingsTokens ss ++ rest).length + 1)
        { cfg := cfg, args := settingsTokens ss ++ rest } =
      parseLoop (rest.length + 1) { cfg := ss.foldl Setting.apply cfg, args := rest } := by
  intro ss
  induction ss with
  | nil => intro cfg rest _; rfl
  | cons s ss ih =>
    intro cfg rest hall
    have hs := hall s (List.mem_cons_self _ _)
    have hp := parseOne_setting cfg s (settingsTokens ss ++ rest) hs
    rw [← List.append_assoc] at hp
    have := parseLoop_seen cfg (s.apply cfg) (s.tokens ++ settingsTokens ss ++ rest)
      (settingsTokens ss ++ rest) none hp
    show parseLoop ((s.tokens ++ settingsTokens ss ++ rest).length + 1)
      { cfg := cfg, args := s.tokens ++ settingsTokens ss ++ rest } = _
    rw [this, ih (s.apply cfg) rest (fun t ht => hall t (List.mem_cons_of_mem _ ht))]
    rfl

/-- A token shaped as a flag whose name is not registered stops the parse
with an error. -/
theorem parseOne_unknown (cfg : config) (tok name : String) (tail : List Char)
    (rest : List String) (n0 : Char) (ns : List Char)
    (hshape : tok.data = '-' :: name.data ++ tail ∨ tok.data = '-' :: '-' :: name.data ++ tail)
    (hname : name.data = n0 :: ns) (hdash : n0 ≠ '-') (heq : '=' ∉ name.data)
    (htail : tail = [] ∨ ∃ v, tail = '=' :: v) (hformal : formal name = none) :
    ∃ err, parseOne { cfg := cfg, args := tok :: rest } =
      (false, some err, { cfg := cfg, args := rest }) := by
  have hn0e : ¬ n0 = '=' := by
    intro h; apply heq; rw [hname, h]; exact List.mem_cons_self _ _
  have hns : '=' ∉ ns := by
    intro h; apply heq; rw [hname]; exact List.mem_cons_of_mem _ h
  have hnm : String.mk (n0 :: ns) = name := by
    rw [← hname]
  rcases htail with rfl | ⟨v, rfl⟩
  · have hf : findEq ns = none := findEq_of_not_mem ns hns
    rw [hname, List.append_nil, List.append_nil] at hshape
    rcases hshape with hs | hs
    · simp only [parseOne, hs, hdash, hn0e, or_self, if_false, ne_eq,
        not_true_eq_false, false_and, hf, hnm, hformal]
      split <;> exact ⟨_, rfl⟩
    · simp only [parseOne, hs, hdash, hn0e, or_self, if_false, ne_eq,
        not_true_eq_false, true_and, if_true, reduceCtorEq, hf, hnm, hformal]
      split <;> exact ⟨_, rfl⟩
  · have hf : findEq (ns ++ '=' :: v) = some (ns, v) := findEq_append ns v hns
    rw [hname] at hshape
    rcases hshape with hs | hs
    · simp only [parseOne, hs, List.cons_append, hdash, hn0e, or_self, if_false, ne_eq,
        not_true_eq_false, false_and, hf, hnm, hformal]
      split <;> exact ⟨_, rfl⟩
    · simp only [parseOne, hs, List.cons_append, hdash, hn0e, or_self, if_false, ne_eq,
        not_true_eq_false, true_and, if_true, reduceCtorEq, hf, hnm, hformal]
      split <;> exact ⟨_, rfl⟩

/-! ### Lemmas about `ParseDuration` -/

theorem leadingInt_length : ∀ (s : List Char) (x v : Nat) (r : List Char),
    leadingInt x s = some (v, r) → r.length ≤ s.length := by
  intro s
  induction s with
  | nil => intro x v r h; simp [leadingInt] at h; simp [h.2.symm]
  | cons c cs ih =>
    intro x v r h
    unfold leadingInt at h
    split at h
    · simp only [Option.some.injEq, Prod.mk.injEq] at h
      rw [← h.2]
    · split at h
      · cases h
      · simp only at h
        split at h
        · cases h
        · have := ih _ _ _ h
          simp only [List.length_cons]
          omega

theorem leadingFraction_length : ∀ (s : List Char) (x scale : Nat) (o : Bool),
    (leadingFraction x scale o s).2.2.length ≤ s.length := by
  intro s
  induction s with
  | nil => intro x scale o; simp [leadingFraction]
  | cons c cs ih =>
    intro x scale o
    unfold leadingFraction
    split
    · simp
    · have h1 := ih x scale true
      split
      · simp only [List.length_cons]; omega
      · split
        · simp only [List.length_cons]; omega
        · simp only
          split
          · simp only [List.length_cons]; omega
          · have := ih (x * 10 + digitVal c) (scale * 10) false
            simp only [List.length_cons]; omega

theorem spanUnit_length : ∀ (s : List Char),
    (spanUnit s).1.length + (spanUnit s).2.length = s.length := by
  intro s
  induction s with
  | nil => simp [spanUnit]
  | cons c cs ih =>
    unfold spanUnit
    split
    · simp
    · simp only [List.length_cons]
      omega

theorem fractionPart_length (s : List Char) : (fractionPart s).2.2.1.length ≤ s.length := by
  unfold fractionPart
  split
  · have := leadingFraction_length (by assumption) 0 1 false
    simp only [List.length_cons]
    omega
  · exact Nat.le_refl _

/-- Every turn of the loop that goes on has consumed at least one character. -/
theorem parseDurationStep_length (d : Nat) (c : Char) (cs : List Char) (d1 : Nat)
    (s4 : List Char) (h : parseDurationStep d c cs = some (d1, s4)) :
    s4.length ≤ cs.length := by
  unfold parseDurationStep at h
  split at h
  · cases h
  · split at h
    · cases h
    · rename_i v s1 hli
      have hl1 := leadingInt_length _ _ _ _ hli
      have hl3 := fractionPart_length s1
      have hsp := spanUnit_length (fractionPart s1).2.2.1
      simp only at h
      split at h
      · cases h
      · split at h
        · cases h
        · rename_i hu
          have hupos : 0 < (spanUnit (fractionPart s1).2.2.1).1.length :=
            List.length_pos.mpr hu
          have hs4 : s4 = (spanUnit (fractionPart s1).2.2.1).2 := by
            repeat' split at h
            all_goals first
              | (simp only [Option.some.injEq, Prod.mk.injEq] at h; exact h.2.symm)
              | cases h
          rw [hs4]
          simp only [List.length_cons] at hl1
          omega

/-- Fuel that covers the length of the input is never used up. -/
theorem parseDurationLoop_fuel : ∀ (n m d : Nat) (s : List Char),
    s.length ≤ n → s.length ≤ m → parseDurationLoop n d s = parseDurationLoop m d s := by
  intro n
  induction n with
  | zero =>
    intro m d s hn _
    have : s = [] := List.length_eq_zero.mp (Nat.le_zero.mp hn)
    subst this
    cases m <;> rfl
  | succ n ih =>
    intro m d s hn hm
    cases s with
    | nil => cases m <;> rfl
    | cons c cs =>
      cases m with
      | zero => simp at hm
      | succ m =>
        unfold parseDurationLoop
        cases hstep : parseDurationStep d c cs with
        | none => rfl
        | some r =>
          obtain ⟨d1, s4⟩ := r
          have := parseDurationStep_length d c cs d1 s4 hstep
          simp only [List.length_cons] at hn hm
          exact ih m d1 s4 (by omega) (by omega)

/-! ## The claims -/

/-- C1: for every reply whose device-status variant is present and every sink
whose writes all succeed, `run` returns nil and writes exactly the labeled
lines `ID`, `HW`, `SW`, `State`, `Uptime (s)`, `Ping latency (ms)`,
`Ping drop rate`, `Downlink (bps)`, `Uplink (bps)` in this order, followed by
`Obstructed now` and `Fraction obstructed` exactly when the obstruction group
is present; so there are 11 lines with the group and 9 without, the 9-line
output is the first 9 lines of the output for the same reply with a group
added, and an absent device-info or device-state group (or a zero state)
gives the default value on its line. -/
theorem C1_run_writes_labeled_lines (out : Writer) (args : List String) (dial : dialFn)
    (cfg : config) (conn : ClientConn) (resp : Response) (status : DishGetStatusResponse)
    (hargs : parseArgs args = (cfg, none)) (hdial : dial cfg.addr = Except.ok conn)
    (hrpc : conn.handle cfg.timeout cfg.waitReady = Except.ok resp)
    (hst : resp.GetDishGetStatus = some status)
    (hout : ∀ hist p, out hist p = none) :
    (run out args dial).1 = none ∧
    writesOf (run out args dial).2 =
      [ "ID: " ++ DeviceInfo.GetId status.deviceInfo ++ "\n",
        "HW: " ++ DeviceInfo.GetHardwareVersion status.deviceInfo ++ "\n",
        "SW: " ++ DeviceInfo.GetSoftwareVersion status.deviceInfo ++ "\n",
        "State: " ++ DishState.String status.state ++ "\n",
        "Uptime (s): " ++ fmtUint (DeviceState.GetUptimeS status.deviceState) ++ "\n",
        "Ping latency (ms): " ++ fmtFixed 2 status.popPingLatencyMs ++ "\n",
        "Ping drop rate: " ++ fmtFixed 4 status.popPingDropRate ++ "\n",
        "Downlink (bps): " ++ fmtFixed 0 status.downlinkThroughputBps ++ "\n",
        "Uplink (bps): " ++ fmtFixed 0 status.uplinkThroughputBps ++ "\n" ] ++
      (match status.obstructionStats with
       | none => []
       | some obs =>
         [ "Obstructed now: " ++ fmtBool obs.currentlyObstructed ++ "\n",
           "Fraction obstructed: " ++ fmtFixed 4 obs.fractionObstructed ++ "\n" ]) ∧
    (writesOf (run out args dial).2).length =
      (if status.obstructionStats.isSome then 11 else 9) ∧
    (∀ (obs : DishObstructionStats) (dial2 : dialFn) (conn2 : ClientConn),
      status.obstructionStats = none →
      dial2 cfg.addr = Except.ok conn2 →
      conn2.handle cfg.timeout cfg.waitReady =
        Except.ok (Response.dishGetStatus { status with obstructionStats := some obs }) →
      (writesOf (run out args dial2).2).length = 11 ∧
      (writesOf (run out args dial2).2).take 9 = writesOf (run out args dial).2) ∧
    (status.deviceInfo = none →
      (writesOf (run out args dial).2).take 3 = ["ID: \n", "HW: \n", "SW: \n"]) ∧
    (status.state = 0 → (writesOf (run out args dial).2).get? 3 = some "State: UNKNOWN\n") ∧
    (status.deviceState = none →
      (writesOf (run out args dial).2).get? 4 = some "Uptime (s): 0\n") := by
  obtain ⟨hres, hw⟩ := run_accepting out args dial cfg conn resp status hargs hdial hrpc hst hout
  refine ⟨hres, ?_, ?_, ?_, ?_, ?_, ?_⟩
  · rw [hw]; rfl
  · rw [hw, statusLines_length]
  · intro obs dial2 conn2 hnone hdial2 hrpc2
    obtain ⟨_, hw2⟩ := run_accepting out args dial2 cfg conn2 _ _ hargs hdial2 hrpc2 rfl hout
    rw [hw2, hw]
    simp [statusLines, hnone]
  · intro hinfo
    rw [hw]
    simp [statusLines, hinfo, DeviceInfo.GetId, DeviceInfo.GetHardwareVersion,
      DeviceInfo.GetSoftwareVersion]
  · intro hzero
    rw [hw]
    simp [statusLines, hzero, DishState.String]
  · intro hds
    rw [hw]
    simp [statusLines, hds, DeviceState.GetUptimeS, fmtUint]
    decide

/-- C1, on the scenario of the specification: default arguments, a sink that
accepts every write, and the scenario reply give the eleven lines listed
there. -/
theorem C1_run_writes_labeled_lines_witness :
    writesOf (run acceptAll [] (dialTo (connWith (Response.dishGetStatus scenarioStatus) none))).2 =
      [ "ID: abc123\n",
        "HW: rev2\n",
        "SW: 2024.01\n",
        "State: CONNECTED\n",
        "Uptime (s): 3600\n",
        "Ping latency (ms): 25.50\n",
        "Ping drop rate: 0.0012\n",
        "Downlink (bps): 150000000\n",
        "Uplink (bps): 12000000\n",
        "Obstructed now: false\n",
        "Fraction obstructed: 0.0003\n" ] :=
  (C1_run_writes_labeled_lines acceptAll []
    (dialTo (connWith (Response.dishGetStatus scenarioStatus) none)) defaultConfig
    (connWith (Response.dishGetStatus scenarioStatus) none)
    (Response.dishGetStatus scenarioStatus) scenarioStatus rfl rfl rfl rfl
    (fun _ _ => rfl)).2.1.trans (by decide)

/-- C2: when the arguments parse, the factory returns a connection and the RPC
succeeds with a reply whose device-status variant is absent, `run` returns an
error and makes no write at all on the output sink, whatever the sink and
the rest of the reply are. -/
theorem C2_missing_status_no_output (out : Writer) (args : List String) (dial : dialFn)
    (cfg : config) (conn : ClientConn) (resp : Response)
    (hargs : parseArgs args = (cfg, none)) (hdial : dial cfg.addr = Except.ok conn)
    (hrpc : conn.handle cfg.timeout cfg.waitReady = Except.ok resp)
    (hst : resp.GetDishGetStatus = none) :
    (run out args dial).1 =
      some (Error.errorf "unexpected response: dish_get_status is nil") ∧
    (run out args dial).1 ≠ none ∧
    writesOf (run out args dial).2 = [] := by
  have hrc : runConnected out cfg conn =
      (some (Error.errorf "unexpected response: dish_get_status is nil"),
        [Event.handle cfg.timeout cfg.waitReady]) := by
    simp [runConnected, hrpc, hst]
  rw [run_connected out args dial cfg conn hargs hdial, hrc]
  refine ⟨rfl, by simp, ?_⟩
  show writesOf ([Event.dial cfg.addr, Event.handle cfg.timeout cfg.waitReady] ++
    deferredClose conn) = []
  rw [writesOf_append, writesOf_deferredClose]
  rfl

/-- C2 on a reply that carries another variant of the oneof. -/
theorem C2_missing_status_no_output_witness :
    (run acceptAll [] (dialTo (connWith (Response.other 2001) none))).1 ≠ none ∧
    writesOf (run acceptAll [] (dialTo (connWith (Response.other 2001) none))).2 = [] :=
  (C2_missing_status_no_output acceptAll [] (dialTo (connWith (Response.other 2001) none))
    defaultConfig (connWith (Response.other 2001) none) (Response.other 2001)
    rfl rfl rfl rfl).2

/-- C3: on a reply with the device-status variant present, when the `k`-th
line write (`1 ≤ k ≤` the number of lines `run` writes for that reply on a
sink that accepts everything) is the first one the sink rejects, `run`
attempts exactly `k` writes, namely the first `k` lines in order, nothing
after the rejected write and no second attempt at it, and returns the very
error the sink returned for that write. -/
theorem C3_first_write_failure_aborts (out : Writer) (args : List String) (dial : dialFn)
    (cfg : config) (conn : ClientConn) (resp : Response) (status : DishGetStatusResponse)
    (k : Nat) (line : String) (err : Error)
    (hargs : parseArgs args = (cfg, none)) (hdial : dial cfg.addr = Except.ok conn)
    (hrpc : conn.handle cfg.timeout cfg.waitReady = Except.ok resp)
    (hst : resp.GetDishGetStatus = some status)
    (hk : 1 ≤ k)
    (hline : (writesOf (run acceptAll args dial).2).get? (k - 1) = some line)
    (hprev : ∀ i p, i < k - 1 → (writesOf (run acceptAll args dial).2).get? i = some p →
      out ((writesOf (run acceptAll args dial).2).take i) p = none)
    (hfail : out ((writesOf (run acceptAll args dial).2).take (k - 1)) line = some err) :
    k ≤ (writesOf (run acceptAll args dial).2).length ∧
    writesOf (run out args dial).2 = (writesOf (run acceptAll args dial).2).take k ∧
    (writesOf (run out args dial).2).length = k ∧
    (run out args dial).1 = some err := by
  have hacc := (run_accepting acceptAll args dial cfg conn resp status hargs hdial hrpc hst
    (fun _ _ => rfl)).2
  rw [hacc] at hline hprev hfail
  rw [hacc]
  have hlen : k ≤ (statusLines status).length := by
    have := (List.get?_eq_some.mp hline).1
    omega
  have hk1 : k - 1 + 1 = k := Nat.sub_add_cancel hk
  have hwa := writeAll_fail out err (statusLines status)
    [Event.handle cfg.timeout cfg.waitReady] (k - 1) line hline
    (by intro i p hi hp; simpa [writesOf] using hprev i p hi hp)
    (by simpa [writesOf] using hfail)
  rw [hk1] at hwa
  rw [run_status out args dial cfg conn resp status hargs hdial hrpc hst, hwa]
  have hw : writesOf (Event.dial cfg.addr ::
      ([Event.handle cfg.timeout cfg.waitReady] ++
        ((statusLines status).take k).map Event.write) ++ deferredClose conn) =
      (statusLines status).take k := by
    show writesOf ([Event.dial cfg.addr] ++
      ([Event.handle cfg.timeout cfg.waitReady] ++
        ((statusLines status).take k).map Event.write) ++ deferredClose conn) = _
    rw [writesOf_append, writesOf_append, writesOf_append, writesOf_map_write,
      writesOf_deferredClose, List.append_nil]
    rfl
  refine ⟨hlen, hw, ?_, rfl⟩
  show (writesOf (Event.dial cfg.addr ::
      ([Event.handle cfg.timeout cfg.waitReady] ++
        ((statusLines status).take k).map Event.write) ++ deferredClose conn)).length = k
  rw [hw, List.length_take]
  omega

/-- C3 on the scenario reply with a sink that rejects its third write. -/
theorem C3_first_write_failure_aborts_witness :
    writesOf (run (failAt 3 (Error.collaborator "disk full")) []
      (dialTo (connWith (Response.dishGetStatus scenarioStatus) none))).2 =
      ["ID: abc123\n", "HW: rev2\n", "SW: 2024.01\n"] ∧
    (run (failAt 3 (Error.collaborator "disk full")) []
      (dialTo (connWith (Response.dishGetStatus scenarioStatus) none))).1 =
      some (Error.collaborator "disk full") :=
  have h := C3_first_write_failure_aborts (failAt 3 (Error.collaborator "disk full")) []
    (dialTo (connWith (Response.dishGetStatus scenarioStatus) none)) defaultConfig
    (connWith (Response.dishGetStatus scenarioStatus) none)
    (Response.dishGetStatus scenarioStatus) scenarioStatus 3 "SW: 2024.01\n"
    (Error.collaborator "disk full") rfl rfl rfl rfl (by decide) (by decide)
    (by
      intro i p hi _
      have hlen : ∀ l : List String, ¬ ((l.take i).length + 1 = 3) := by
        intro l
        have := List.length_take_le i l
        omega
      unfold failAt
      rw [if_neg (hlen _)])
    (by decide)
  ⟨h.2.1.trans (by decide), h.2.2.2⟩

/-- C4: whenever the connection factory returns a handle, the trace of `run`
has exactly one `Close`, placed after every other call `run` makes on the
connection and the sink, on every exit path; the error `run` returns (and
what it writes) is the same whatever `Close` returns.  When argument parsing
fails or the factory fails, `Close` is never called. -/
theorem C4_close_exactly_once (out : Writer) (args : List String) (dial : dialFn) :
    (∀ (cfg : config) (conn : ClientConn),
      parseArgs args = (cfg, none) → dial cfg.addr = Except.ok conn →
      closeCount (run out args dial).2 = 1 ∧
      (∃ pre : List Event,
        (run out args dial).2 = pre ++ deferredClose conn ∧ closeCount pre = 0) ∧
      (∀ (c : Option Error) (dial2 : dialFn),
        dial2 cfg.addr = Except.ok { conn with close := c } →
        (run out args dial2).1 = (run out args dial).1 ∧
        writesOf (run out args dial2).2 = writesOf (run out args dial).2 ∧
        closeCount (run out args dial2).2 = 1)) ∧
    (∀ (cfg : config) (err : Error), parseArgs args = (cfg, some err) →
      closeCount (run out args dial).2 = 0) ∧
    (∀ (cfg : config) (err : Error),
      parseArgs args = (cfg, none) → dial cfg.addr = Except.error err →
      closeCount (run out args dial).2 = 0) := by
  have hpre : ∀ (cfg : config) (conn : ClientConn),
      closeCount (Event.dial cfg.addr :: (runConnected out cfg conn).2) = 0 := by
    intro cfg conn
    obtain ⟨ws, hws⟩ := runConnected_trace out cfg conn
    rw [hws]
    have := closeCount_map_write ws
    simpa [closeCount, List.count_cons] using this
  have hone : ∀ (cfg : config) (conn : ClientConn),
      closeCount (Event.dial cfg.addr :: (runConnected out cfg conn).2 ++
        deferredClose conn) = 1 := by
    intro cfg conn
    have h1 := hpre cfg conn
    have h2 := closeCount_deferredClose conn
    unfold closeCount at h1 h2 ⊢
    rw [List.count_append, h1, h2]
  refine ⟨?_, ?_, ?_⟩
  · intro cfg conn hargs hdial
    rw [run_connected out args dial cfg conn hargs hdial]
    refine ⟨hone cfg conn, ⟨_, rfl, hpre cfg conn⟩, ?_⟩
    intro c dial2 hdial2
    rw [run_connected out args dial2 cfg _ hargs hdial2, runConnected_close_irrelevant]
    refine ⟨rfl, ?_, ?_⟩
    · show writesOf ((Event.dial cfg.addr :: (runConnected out cfg conn).2) ++
          deferredClose { conn with close := c }) =
        writesOf ((Event.dial cfg.addr :: (runConnected out cfg conn).2) ++ deferredClose conn)
      rw [writesOf_append, writesOf_append, writesOf_deferredClose, writesOf_deferredClose]
    · have h1 := hpre cfg conn
      have h2 := closeCount_deferredClose { conn with close := c }
      unfold closeCount at h1 h2 ⊢
      show List.count Event.close ((Event.dial cfg.addr :: (runConnected out cfg conn).2) ++
        deferredClose { conn with close := c }) = 1
      rw [List.count_append, h1, h2]
  · intro cfg err hargs
    simp [run, hargs, closeCount]
  · intro cfg err hargs hdial
    simp [run, hargs, hdial, closeCount]

/-- C4 on the scenario reply with a `Close` that fails: one `Close`, and the
result is the nil of the run whose `Close` succeeds. -/
theorem C4_close_exactly_once_witness :
    closeCount (run acceptAll []
      (dialTo (connWith (Response.dishGetStatus scenarioStatus)
        (some (Error.collaborator "already closed"))))).2 = 1 ∧
    (run acceptAll []
      (dialTo (connWith (Response.dishGetStatus scenarioStatus)
        (some (Error.collaborator "already closed"))))).1 =
      (run acceptAll [] (dialTo (connWith (Response.dishGetStatus scenarioStatus) none))).1 :=
  have h := (C4_close_exactly_once acceptAll []
    (dialTo (connWith (Response.dishGetStatus scenarioStatus) none))).1 defaultConfig
    (connWith (Response.dishGetStatus scenarioStatus) none) rfl rfl
  have h2 := h.2.2 (some (Error.collaborator "already closed"))
    (dialTo (connWith (Response.dishGetStatus scenarioStatus)
      (some (Error.collaborator "already closed")))) rfl
  ⟨h2.2.2, h2.1⟩

/-- C5: when the arguments parse and the connection factory returns an error
`err`, `run` calls the factory and nothing else (no `Handle`, no write, no
`Close`), and returns a non-nil error that wraps `err` under the prefix
`create client: `. -/
theorem C5_dial_failure_wrapped (out : Writer) (args : List String) (dial : dialFn)
    (cfg : config) (err : Error)
    (hargs : parseArgs args = (cfg, none)) (hdial : dial cfg.addr = Except.error err) :
    hasHandle (run out args dial).2 = false ∧
    writesOf (run out args dial).2 = [] ∧
    (run out args dial).2 = [Event.dial cfg.addr] ∧
    (run out args dial).1 = some (Error.wrap "create client: " err) ∧
    (run out args dial).1 ≠ none ∧
    (run out args dial).1.bind Error.unwrap = some err := by
  simp [run, hargs, hdial, hasHandle, writesOf, Error.unwrap]

/-- C5 on a factory that rejects every address. -/
theorem C5_dial_failure_wrapped_witness :
    (run acceptAll [] (fun _ => Except.error (Error.collaborator "bad address"))).1 =
      some (Error.wrap "create client: " (Error.collaborator "bad address")) ∧
    hasHandle (run acceptAll [] (fun _ => Except.error (Error.collaborator "bad address"))).2 =
      false :=
  have h := C5_dial_failure_wrapped acceptAll []
    (fun _ => Except.error (Error.collaborator "bad address")) defaultConfig
    (Error.collaborator "bad address") rfl rfl
  ⟨h.2.2.2.1, h.1⟩

/-- Parsing the tokens of well-formed settings succeeds with the settings
applied, in order, to the defaults. -/
theorem parseArgs_settings (ss : List Setting) (hss : ∀ s ∈ ss, s.wellFormed = true) :
    parseArgs (settingsTokens ss) = (ss.foldl Setting.apply defaultConfig, none) := by
  have h := parseLoop_settings ss defaultConfig [] hss
  rw [List.append_nil] at h
  unfold parseArgs FlagSet.Parse
  simp only
  rw [h]
  rfl

/-- C6: `parseArgs` of the empty argument list succeeds with the documented
defaults (`192.168.100.1:9200`, 3 seconds, `true`); and whenever `parseArgs`
succeeds on an argument list none of whose tokens names a given flag (`-f`,
`--f`, `-f=...`, `--f=...`), that flag's field has its default. -/
theorem C6_defaults_for_omitted_flags (args : List String) (cfg : config)
    (h : parseArgs args = (cfg, none)) :
    parseArgs [] =
      ({ addr := "192.168.100.1:9200", timeout := 3000000000, waitReady := true }, none) ∧
    ((∀ t ∈ args, namesFlag "addr" t = false) → cfg.addr = "192.168.100.1:9200") ∧
    ((∀ t ∈ args, namesFlag "timeout" t = false) → cfg.timeout = 3000000000) ∧
    ((∀ t ∈ args, namesFlag "wait-ready" t = false) → cfg.waitReady = true) := by
  have hcfg := parseArgs_ok_cfg args cfg h
  refine ⟨rfl, ?_, ?_, ?_⟩
  · intro hno
    rw [hcfg]
    exact parseLoop_field_unchanged Flag.addr config.addr
      (fun fl value c c1 hset hne => Flag.set_addr_of_ne hset hne) _
      { cfg := defaultConfig, args := args } hno
  · intro hno
    rw [hcfg]
    exact parseLoop_field_unchanged Flag.timeout config.timeout
      (fun fl value c c1 hset hne => Flag.set_timeout_of_ne hset hne) _
      { cfg := defaultConfig, args := args } hno
  · intro hno
    rw [hcfg]
    exact parseLoop_field_unchanged Flag.waitReady config.waitReady
      (fun fl value c c1 hset hne => Flag.set_waitReady_of_ne hset hne) _
      { cfg := defaultConfig, args := args } hno

/-- C6 on `--timeout 5s`: the address and the readiness flag keep their
defaults. -/
theorem C6_defaults_for_omitted_flags_witness :
    (parseArgs ["--timeout", "5s"]).1.addr = "192.168.100.1:9200" ∧
    (parseArgs ["--timeout", "5s"]).1.waitReady = true :=
  have h := C6_defaults_for_omitted_flags ["--timeout", "5s"]
    { addr := "192.168.100.1:9200", timeout := 5000000000, waitReady := true } rfl
  ⟨h.2.1 (by decide), h.2.2.2 (by decide)⟩

/-- C7 fails as stated: a value given to `--wait-ready` as a separate token
is not read.  `--wait-ready false` leaves `waitReady` at `true`, and the
parse stops at `false`, so a flag after it is not applied. -/
theorem C7_counterexample :
    parseArgs ["--wait-ready", "false"] =
      ({ addr := "192.168.100.1:9200", timeout := 3000000000, waitReady := true }, none) ∧
    parseArgs ["--wait-ready", "false", "--addr", "10.0.0.1:9200"] =
      ({ addr := "192.168.100.1:9200", timeout := 3000000000, waitReady := true }, none) ∧
    parseArgs ["--addr", "10.0.0.1:9200", "--timeout", "5s", "--wait-ready", "false"] =
      ({ addr := "10.0.0.1:9200", timeout := 5000000000, waitReady := true }, none) := by
  decide

/-- C7, amended: with the address and the timeout given as `--addr A` and
`--timeout D` (value in the next token) and the boolean given as
`--wait-ready=B` (value attached by `=`), in any order of the three flags,
`parseArgs` succeeds and returns the address `A`, the duration `D` denotes
and the boolean `B`. -/
theorem C7_supplied_flags_echoed (a d : String) (x : Duration) (b : Bool)
    (hd : parseDuration d = some x) :
    parseArgs ["--addr", a, "--timeout", d, "--wait-ready=" ++ fmtBool b] =
      ({ addr := a, timeout := x, waitReady := b }, none) ∧
    parseArgs ["--addr", a, "--wait-ready=" ++ fmtBool b, "--timeout", d] =
      ({ addr := a, timeout := x, waitReady := b }, none) ∧
    parseArgs ["--timeout", d, "--addr", a, "--wait-ready=" ++ fmtBool b] =
      ({ addr := a, timeout := x, waitReady := b }, none) ∧
    parseArgs ["--timeout", d, "--wait-ready=" ++ fmtBool b, "--addr", a] =
      ({ addr := a, timeout := x, waitReady := b }, none) ∧
    parseArgs ["--wait-ready=" ++ fmtBool b, "--addr", a, "--timeout", d] =
      ({ addr := a, timeout := x, waitReady := b }, none) ∧
    parseArgs ["--wait-ready=" ++ fmtBool b, "--timeout", d, "--addr", a] =
      ({ addr := a, timeout := x, waitReady := b }, none) := by
  have hwf : ∀ ss : List Setting,
      (∀ s ∈ ss, s = Setting.addr a ∨ s = Setting.timeout d ∨ s = Setting.waitReady b) →
      ∀ s ∈ ss, s.wellFormed = true := by
    intro ss hss s hs
    rcases hss s hs with rfl | rfl | rfl
    · rfl
    · simp [Setting.wellFormed, hd]
    · rfl
  have key : ∀ ss : List Setting,
      (∀ s ∈ ss, s = Setting.addr a ∨ s = Setting.timeout d ∨ s = Setting.waitReady b) →
      parseArgs (settingsTokens ss) = (ss.foldl Setting.apply defaultConfig, none) :=
    fun ss hss => parseArgs_settings ss (hwf ss hss)
  refine ⟨?_, ?_, ?_, ?_, ?_, ?_⟩
  · exact (key [Setting.addr a, Setting.timeout d, Setting.waitReady b] (by simp)).trans
      (by simp [Setting.apply, hd, defaultConfig])
  · exact (key [Setting.addr a, Setting.waitReady b, Setting.timeout d] (by simp)).trans
      (by simp [Setting.apply, hd, defaultConfig])
  · exact (key [Setting.timeout d, Setting.addr a, Setting.waitReady b] (by simp)).trans
      (by simp [Setting.apply, hd, defaultConfig])
  · exact (key [Setting.timeout d, Setting.waitReady b, Setting.addr a] (by simp)).trans
      (by simp [Setting.apply, hd, defaultConfig])
  · exact (key [Setting.waitReady b, Setting.addr a, Setting.timeout d] (by simp)).trans
      (by simp [Setting.apply, hd, defaultConfig])
  · exact (key [Setting.waitReady b, Setting.timeout d, Setting.addr a] (by simp)).trans
      (by simp [Setting.apply, hd, defaultConfig])

/-- C7 amended, on `--wait-ready=false --timeout 5s --addr 10.0.0.1:9200`. -/
theorem C7_supplied_flags_echoed_witness :
    parseArgs ["--wait-ready=false", "--timeout", "5s", "--addr", "10.0.0.1:9200"] =
      ({ addr := "10.0.0.1:9200", timeout := 5000000000, waitReady := false }, none) :=
  (C7_supplied_flags_echoed "10.0.0.1:9200" "5s" 5000000000 false (by decide)).2.2.2.2.2

theorem run_parse_error (out : Writer) (args : List String) (dial : dialFn) (cfg : config)
    (err : Error) (h : parseArgs args = (cfg, some err)) :
    run out args dial = (some err, []) := by
  simp [run, h]

/-- The result of `parseArgs` when the parse, after well-formed settings,
stops on an error. -/
theorem parseArgs_settings_stop (ss : List Setting) (hss : ∀ s ∈ ss, s.wellFormed = true)
    (rest : List String) (err : Error) (f1 : FlagSet)
    (h : parseOne { cfg := ss.foldl Setting.apply defaultConfig, args := rest } =
      (false, some err, f1)) :
    parseArgs (settingsTokens ss ++ rest) = (config.zero, some err) := by
  have h1 := parseLoop_settings ss defaultConfig rest hss
  have h2 := parseLoop_stop (ss.foldl Setting.apply defaultConfig) rest (some err) f1 h
  unfold parseArgs FlagSet.Parse
  simp only
  rw [h1, h2]

/-- C8 fails as stated: a token shaped as an unknown flag, or a malformed
`--timeout` value, that comes after the first non-flag token is never looked
at.  `status --bogus` parses to the defaults and `run` goes on to call the
connection factory; `--wait-ready false --timeout soon` parses too. -/
theorem C8_counterexample :
    namesFlag "bogus" "--bogus" = true ∧ formal "bogus" = none ∧
    parseArgs ["status", "--bogus"] = (defaultConfig, none) ∧
    hasDial (run acceptAll ["status", "--bogus"]
      (dialTo (connWith (Response.dishGetStatus scenarioStatus) none))).2 = true ∧
    (run acceptAll ["status", "--bogus"]
      (dialTo (connWith (Response.dishGetStatus scenarioStatus) none))).1 = none ∧
    parseDuration "soon" = none ∧
    parseArgs ["--wait-ready", "false", "--timeout", "soon"] = (defaultConfig, none) := by
  decide

/-- C8, amended: when the flag parser reaches an unknown flag or a malformed
`--timeout` value, that is, when the argument list is a run of well-formed
settings of the known flags followed by a token shaped as a flag with an
unregistered name, or followed by `--timeout` and a text `ParseDuration`
rejects, `parseArgs` returns an error and the zero configuration, and `run`
returns that error with an empty trace: no factory call, no RPC, no write.
Tokens after the first non-flag token or after `--` are not examined. -/
theorem C8_reached_bad_flag_fails (out : Writer) (dial : dialFn) (ss : List Setting)
    (rest : List String) (hss : ∀ s ∈ ss, s.wellFormed = true) :
    (∀ (dashes name tail : String),
      (dashes = "-" ∨ dashes = "--") →
      name ≠ "" → name.data.head? ≠ some '-' → '=' ∉ name.data →
      (tail = "" ∨ tail.data.head? = some '=') →
      formal name = none →
      ∃ err : Error,
        parseArgs (settingsTokens ss ++ (dashes ++ name ++ tail) :: rest) =
          (config.zero, some err) ∧
        run out (settingsTokens ss ++ (dashes ++ name ++ tail) :: rest) dial =
          (some err, [])) ∧
    (∀ d : String, parseDuration d = none →
      parseArgs (settingsTokens ss ++ "--timeout" :: d :: rest) =
        (config.zero, some (Error.invalidValue d "timeout")) ∧
      run out (settingsTokens ss ++ "--timeout" :: d :: rest) dial =
        (some (Error.invalidValue d "timeout"), [])) := by
  constructor
  · intro dashes name tail hdashes hne hhead heq htail hformal
    rcases hnd : name.data with _ | ⟨n0, ns⟩
    · exact absurd (String.ext hnd) hne
    have hn0 : n0 ≠ '-' := by
      intro hh; apply hhead; rw [hnd, hh]; rfl
    have htl : tail.data = [] ∨ ∃ v, tail.data = '=' :: v := by
      rcases htail with rfl | ht
      · left; rfl
      · rcases htd : tail.data with _ | ⟨c, v⟩
        · rw [htd] at ht; cases ht
        · rw [htd] at ht
          simp only [List.head?_cons, Option.some.injEq] at ht
          right; exact ⟨v, by rw [ht]⟩
    have hshape : (dashes ++ name ++ tail).data = '-' :: name.data ++ tail.data ∨
        (dashes ++ name ++ tail).data = '-' :: '-' :: name.data ++ tail.data := by
      rcases hdashes with rfl | rfl
      · left; simp [String.data_append]
      · right; simp [String.data_append]
    have hone : ∀ cfg, ∃ err, parseOne { cfg := cfg, args := (dashes ++ name ++ tail) :: rest } =
        (false, some err, { cfg := cfg, args := rest }) :=
      fun cfg => parseOne_unknown cfg _ name tail.data rest n0 ns hshape hnd hn0 heq htl hformal
    obtain ⟨err, herr⟩ := hone (ss.foldl Setting.apply defaultConfig)
    have hp := parseArgs_settings_stop ss hss ((dashes ++ name ++ tail) :: rest) err _ herr
    exact ⟨err, hp, run_parse_error out _ dial _ err hp⟩
  · intro d hd
    have hone := parseOne_timeout (ss.foldl Setting.apply defaultConfig) d rest
    rw [hd] at hone
    have hp := parseArgs_settings_stop ss hss ("--timeout" :: d :: rest)
      (Error.invalidValue d "timeout") _ hone
    exact ⟨hp, run_parse_error out _ dial _ _ hp⟩

/-- C8 amended, on `--addr 10.0.0.1:9200 --bogus=1 --timeout 5s` and on
`--wait-ready=false --timeout soon`. -/
theorem C8_reached_bad_flag_fails_witness :
    (∃ err : Error,
      parseArgs ["--addr", "10.0.0.1:9200", "--bogus=1", "--timeout", "5s"] =
        (config.zero, some err) ∧
      run acceptAll ["--addr", "10.0.0.1:9200", "--bogus=1", "--timeout", "5s"]
        (dialTo (connWith (Response.dishGetStatus scenarioStatus) none)) = (some err, [])) ∧
    run acceptAll ["--wait-ready=false", "--timeout", "soon"]
        (dialTo (connWith (Response.dishGetStatus scenarioStatus) none)) =
      (some (Error.invalidValue "soon" "timeout"), []) :=
  ⟨(C8_reached_bad_flag_fails acceptAll
      (dialTo (connWith (Response.dishGetStatus scenarioStatus) none))
      [Setting.addr "10.0.0.1:9200"] ["--timeout", "5s"] (by decide)).1
      "--" "bogus" "=1" (by decide) (by decide) (by decide) (by decide) (by decide) (by decide),
   ((C8_reached_bad_flag_fails acceptAll
      (dialTo (connWith (Response.dishGetStatus scenarioStatus) none))
      [Setting.waitReady false] [] (by decide)).2 "soon" (by decide)).2⟩

/-- An error `writeAll` returns is an error the sink returned for one of the
writes. -/
theorem writeAll_error_from_sink (out : Writer) (err : Error) :
    ∀ (ls : List String) (tr : List Event),
      (writeAll out tr ls).1 = some err → ∃ hist p, out hist p = some err := by
  intro ls
  induction ls with
  | nil => intro tr h; simp [writeAll] at h
  | cons a ls ih =>
    intro tr h
    cases ha : out (writesOf tr) a with
    | some e =>
      simp only [writeAll, fprintf, ha, Option.some.injEq] at h
      exact ⟨writesOf tr, a, by rw [ha, h]⟩
    | none =>
      simp only [writeAll, fprintf, ha] at h
      exact ih _ h

/-- C9 fails as stated: an argument-resolution error and a sink write error
come back from `run` as they are, not wrapped.  On `--bogus` the result is
the very error `parseArgs` returned, and on a sink that rejects the first
write with `e` the result is `e`; neither unwraps to anything. -/
theorem C9_counterexample :
    (parseArgs ["--bogus"]).2 = some (Error.notDefined "bogus") ∧
    (run acceptAll ["--bogus"]
      (dialTo (connWith (Response.dishGetStatus scenarioStatus) none))).1 =
      some (Error.notDefined "bogus") ∧
    (Error.notDefined "bogus").unwrap = none ∧
    (run (failAt 1 (Error.collaborator "broken pipe")) []
      (dialTo (connWith (Response.dishGetStatus scenarioStatus) none))).1 =
      some (Error.collaborator "broken pipe") ∧
    (Error.collaborator "broken pipe").unwrap = none := by
  decide

/-- C9, amended: `run` adds stage context to two of the four stages.  An
error `e` of the connection factory comes back as a new error wrapping `e`
under the prefix `create client: `, an error `e` of the RPC as a new error
wrapping `e` under `handle(get_status): `, and the two prefixes differ.  An
error of argument resolution is returned as it is, and an error returned on
a device-status reply is one the sink returned for a write, as it is. -/
theorem C9_stage_context (out : Writer) (args : List String) (dial : dialFn) :
    (∀ (cfg : config) (e : Error), parseArgs args = (cfg, some e) →
      (run out args dial).1 = some e) ∧
    (∀ (cfg : config) (e : Error), parseArgs args = (cfg, none) →
      dial cfg.addr = Except.error e →
      (run out args dial).1 = some (Error.wrap "create client: " e) ∧
      (Error.wrap "create client: " e).unwrap = some e ∧
      Error.wrap "create client: " e ≠ e) ∧
    (∀ (cfg : config) (conn : ClientConn) (e : Error), parseArgs args = (cfg, none) →
      dial cfg.addr = Except.ok conn →
      conn.handle cfg.timeout cfg.waitReady = Except.error e →
      (run out args dial).1 = some (Error.wrap "handle(get_status): " e) ∧
      (Error.wrap "handle(get_status): " e).unwrap = some e ∧
      Error.wrap "handle(get_status): " e ≠ e) ∧
    (∀ (cfg : config) (conn : ClientConn) (resp : Response) (status : DishGetStatusResponse)
      (e : Error), parseArgs args = (cfg, none) → dial cfg.addr = Except.ok conn →
      conn.handle cfg.timeout cfg.waitReady = Except.ok resp →
      resp.GetDishGetStatus = some status →
      (run out args dial).1 = some e → ∃ hist p, out hist p = some e) ∧
    ("create client: " : String) ≠ "handle(get_status): " := by
  have hwrap : ∀ (p : String) (e : Error), Error.wrap p e ≠ e := by
    intro p e h
    have := congrArg sizeOf h
    simp at this
  refine ⟨?_, ?_, ?_, ?_, by decide⟩
  · intro cfg e h
    rw [run_parse_error out args dial cfg e h]
  · intro cfg e hargs hdial
    exact ⟨by simp [run, hargs, hdial], rfl, hwrap _ _⟩
  · intro cfg conn e hargs hdial hrpc
    refine ⟨?_, rfl, hwrap _ _⟩
    rw [run_connected out args dial cfg conn hargs hdial]
    simp [runConnected, hrpc]
  · intro cfg conn resp status e hargs hdial hrpc hst hres
    rw [run_status out args dial cfg conn resp status hargs hdial hrpc hst] at hres
    exact writeAll_error_from_sink out e _ _ hres

/-- C9 amended, on a factory that fails: the result wraps the cause. -/
theorem C9_stage_context_witness :
    (run acceptAll [] (fun _ => Except.error (Error.collaborator "no route"))).1 =
      some (Error.wrap "create client: " (Error.collaborator "no route")) :=
  ((C9_stage_context acceptAll []
    (fun _ => Except.error (Error.collaborator "no route"))).2.1 defaultConfig
    (Error.collaborator "no route") rfl rfl).1

/-- C10 fails as stated: `parseArgs` does not check the sign of the timeout.
`--timeout 0s` and `--timeout -1s` parse without error to a timeout of zero
and of minus one second, and `run` hands the zero timeout to the call. -/
theorem C10_counterexample :
    parseArgs ["--timeout", "0s"] =
      ({ addr := "192.168.100.1:9200", timeout := 0, waitReady := true }, none) ∧
    ¬ (parseArgs ["--timeout", "0s"]).1.timeoutPositive ∧
    parseArgs ["--timeout", "-1s"] =
      ({ addr := "192.168.100.1:9200", timeout := -1000000000, waitReady := true }, none) ∧
    ¬ (parseArgs ["--timeout", "-1s"]).1.timeoutPositive ∧
    Event.handle 0 true ∈ (run acceptAll ["--timeout", "0s"]
      (dialTo (connWith (Response.dishGetStatus scenarioStatus) none))).2 := by
  decide

/-- C10, amended: `parseArgs` keeps the timeout positive only as far as its
input does.  When no value the argument list supplies (a whole token, or the
text after the first `=` of a token) is a zero or negative duration, every
configuration `parseArgs` returns without error has `timeout > 0`; the
default is positive, and a supplied timeout is the duration its text
denotes, whatever its sign. -/
theorem C10_timeout_positive_when_input_is (args : List String) (cfg : config)
    (h : parseArgs args = (cfg, none))
    (hvals : ∀ t ∈ args,
      (∀ d, parseDuration t = some d → 0 < d) ∧
      (∀ v d, afterEq t = some v → parseDuration v = some d → 0 < d)) :
    cfg.timeoutPositive ∧
    defaultConfig.timeoutPositive ∧
    (∀ (d : String) (x : Duration), parseDuration d = some x →
      parseArgs ["--timeout", d] = ({ defaultConfig with timeout := x }, none)) := by
  refine ⟨?_, by decide, ?_⟩
  · rw [parseArgs_ok_cfg args cfg h]
    have hdef : (0 : Int) < defaultConfig.timeout := by decide
    exact parseLoop_timeout_pos _ { cfg := defaultConfig, args := args } hvals hdef
  · intro d x hd
    have := parseArgs_settings [Setting.timeout d] (by simp [Setting.wellFormed, hd])
    exact this.trans (by simp [Setting.apply, hd])

/-- C10 amended, on `--timeout 10s`. -/
theorem C10_timeout_positive_when_input_is_witness :
    (parseArgs ["--timeout", "10s"]).1.timeoutPositive :=
  (C10_timeout_positive_when_input_is ["--timeout", "10s"]
    { addr := "192.168.100.1:9200", timeout := 10000000000, waitReady := true } rfl
    (by
      intro t ht
      simp only [List.mem_cons, List.mem_singleton, List.not_mem_nil, or_false] at ht
      rcases ht with rfl | rfl
      · have h1 : parseDuration "--timeout" = none := by decide
        have h2 : afterEq "--timeout" = none := by decide
        simp [h1, h2]
      · have h1 : parseDuration "10s" = some 10000000000 := by decide
        have h2 : afterEq "10s" = none := by decide
        simp [h1, h2])).1

end Starlinkctl
